import Mathlib

/-! Verification development for the DRAGIN adaptive retrieval-augmented
generation controller (src/src/generate.py).  The language model, the
tokenizer, the spacy pipeline and the retriever backends are external
collaborators; they enter the embedding through an explicit environment of
oracle functions.  Everything else is translated from the source file. -/

namespace DRAGIN

/-- Python runtime errors that the embedded code paths can raise. -/
inductive PyErr where
  | valueError : String → PyErr
  | keyError : String → PyErr
  | indexError : PyErr
  | assertionError : PyErr
  | nameError : String → PyErr
  | notImplementedError : String → PyErr
  | typeError : String → PyErr
deriving DecidableEq, Repr

/-- Whether an embedded computation finished without raising. -/
def isOkE {α : Type} : Except PyErr α → Bool
  | .ok _ => true
  | .error _ => false

/-- The character list of a string (Python strings are char sequences). -/
def chars (s : String) : List Char := s.data

/-- Rebuild a string from its characters. -/
def ofChars (l : List Char) : String := ⟨l⟩

/-- Clamp an integer slice bound the way Python does for a list of length n. -/
def pyBound (n : Nat) (i : Int) : Nat :=
  if i < 0 then ((n : Int) + i).toNat else min i.toNat n

/-- Python slice l[a:b] (step 1), with negative indices wrapping and bounds
clamped. -/
def pySlice {α : Type} (l : List α) (a b : Int) : List α :=
  (l.take (pyBound l.length b)).drop (pyBound l.length a)

/-- Python slice s[i:] on a string. -/
def pySliceFrom (s : String) (i : Int) : String :=
  ofChars ((chars s).drop (pyBound (chars s).length i))

/-- Python slice s[:i] on a string. -/
def pySliceTo (s : String) (i : Int) : String :=
  ofChars ((chars s).take (pyBound (chars s).length i))

/-- Python indexing l[i] (negative indices wrap; out of range raises). -/
def pyGet {α : Type} (l : List α) (i : Int) : Except PyErr α :=
  let j : Int := if i < 0 then i + l.length else i
  if h : j.toNat < l.length ∧ 0 ≤ j then .ok (l.get ⟨j.toNat, h.1⟩)
  else .error .indexError

/-- Python list item assignment l[i] = v (no negative indices needed here). -/
def pySet {α : Type} (l : List α) (i : Nat) (v : α) : Except PyErr (List α) :=
  if i < l.length then .ok (l.set i v) else .error .indexError

/-- First index at which pat occurs in the character list, scanning left to
right. -/
def findAux (pat : List Char) : List Char → Nat → Option Nat
  | [], i => if pat.isEmpty then some i else none
  | c :: rest, i =>
    if pat.isPrefixOf (c :: rest) then some i else findAux pat rest (i + 1)

/-- Python str.find: index of the first occurrence of pat in s, or -1. -/
def pyFind (s pat : String) : Int :=
  match findAux (chars pat) (chars s) 0 with
  | some i => (i : Int)
  | none => -1

/-- Python membership test pat in s. -/
def pyIn (pat s : String) : Bool := decide (0 ≤ pyFind s pat)

/-- Python str.strip(): drop whitespace from both ends. -/
def pyStrip (s : String) : String :=
  ofChars ((((chars s).dropWhile Char.isWhitespace).reverse.dropWhile
    Char.isWhitespace).reverse)

/-- Python str.startswith. -/
def pyStartsWith (s pre : String) : Bool := (chars pre).isPrefixOf (chars s)

/-- Splitting loop of Python str.split(sep) for a nonempty separator; the
fuel starts at the character count and the loop consumes at least one
character per step, so the fuel never runs out. -/
def pySplitGo (sc : Char) (scs : List Char) : Nat → List Char → List Char →
    List (List Char)
  | _, [], acc => [acc.reverse]
  | 0, l, acc => [acc.reverse ++ l]
  | fuel + 1, c :: rest, acc =>
    if (sc :: scs).isPrefixOf (c :: rest) then
      acc.reverse
        :: pySplitGo sc scs fuel ((c :: rest).drop (scs.length + 1)) []
    else pySplitGo sc scs fuel rest (c :: acc)

/-- Python str.split(sep); an empty separator is returned whole (the source
never splits on an empty separator). -/
def pySplit (s sep : String) : List String :=
  match chars sep with
  | [] => [s]
  | c :: cs => (pySplitGo c cs (chars s).length (chars s) []).map ofChars

/-- Replacement loop of Python str.replace for a nonempty pattern, fuelled
like the splitting loop. -/
def pyReplaceGo (o : Char) (os new : List Char) : Nat → List Char → List Char
  | _, [] => []
  | 0, l => l
  | fuel + 1, c :: rest =>
    if (o :: os).isPrefixOf (c :: rest) then
      new ++ pyReplaceGo o os new fuel ((c :: rest).drop (os.length + 1))
    else c :: pyReplaceGo o os new fuel rest

/-- Python str.replace: replace every non overlapping occurrence left to
right; an empty pattern splices the replacement between all characters. -/
def pyReplace (s old new : String) : String :=
  match chars old with
  | [] =>
    ofChars ((chars new) ++ (chars s).flatMap (fun c => c :: chars new))
  | o :: os => ofChars (pyReplaceGo o os (chars new) (chars s).length (chars s))

/-- Python sep.join for a list of strings. -/
def joinSep (sep : String) : List String → String
  | [] => ""
  | [s] => s
  | s :: rest => s ++ sep ++ joinSep sep rest

/-- Maximum of a nonempty rational list (head-seeded fold). -/
def listMax : List ℚ → ℚ
  | [] => 0
  | [x] => x
  | x :: rest => max x (listMax rest)

/-- Minimum of a nonempty rational list (head-seeded fold). -/
def listMin : List ℚ → ℚ
  | [] => 0
  | [x] => x
  | x :: rest => min x (listMin rest)

/-- np.mean over values that may be NaN (None models NaN): NaN on an empty
input, NaN as soon as one input is NaN, otherwise the arithmetic mean. -/
def npMean (l : List (Option ℚ)) : Option ℚ :=
  if l.contains none ∨ l.isEmpty then none
  else some (l.reduceOption.sum / (l.length : ℚ))

/-- np.max: raises on an empty input, propagates NaN, otherwise the maximum. -/
def npMax (l : List (Option ℚ)) : Except PyErr (Option ℚ) :=
  if l.isEmpty then .error (.valueError ("zero-size array to reduction operation"))
  else if l.contains none then .ok none
  else .ok (some (listMax l.reduceOption))

/-- np.min: raises on an empty input, propagates NaN, otherwise the minimum. -/
def npMin (l : List (Option ℚ)) : Except PyErr (Option ℚ) :=
  if l.isEmpty then .error (.valueError ("zero-size array to reduction operation"))
  else if l.contains none then .ok none
  else .ok (some (listMin l.reduceOption))

/-- Comparison v > t where v may be NaN; any comparison with NaN is false. -/
def optGt (p : Option ℚ) (t : ℚ) : Bool :=
  match p with
  | none => false
  | some v => decide (t < v)

/-- Oracle environment: the generator model, the tokenizer, the spacy
pipeline and the retriever backends of src/src/generate.py, which are
external collaborators of the control loop.  Floating point numbers are
modelled by the rationals and math.exp by the oracle expf. -/
structure Env where
  genText : String → Nat → String
  genLPText : String → Nat → String
  genLPIds : String → Nat → List Nat
  genLPLps : String → Nat → List ℚ
  encodeLen : String → Nat
  encodeIds : String → List Nat
  convertIdsToTokens : List Nat → List String
  tokenize : String → List String
  sents : String → List String
  ents : String → List String
  realWords : String → List String
  attnLast : List Nat → List (List (List ℚ))
  bm25 : String → Nat → Nat → List (List String)
  sgpt : String → Nat → List (List String)
  dbvs : String → Nat → List (List String)
  expf : ℚ → ℚ
  spaceToken : String
  eosToken : String
  newlineToken : Nat

/-- Configuration attributes a RAG instance reads (populated by setattr from
the args mapping in BasicRAG.__init__; an absent optional key is None). -/
structure Cfg where
  generate_max_length : Nat
  hallucination_threshold : ℚ
  sentence_solver : String
  entity_solver : String
  query_formulation : String
  method : String
  retrieve_topk : Nat
  check_real_words : Bool
  retrieve_keep_top_k : Option Nat
  retrieve_keep_ratio : Option ℚ
  fix_length : Nat

/-- A value inside the tuple returned by BasicGenerator.generate. -/
inductive PyVal where
  | s : String → PyVal
  | ids : List Nat → PyVal
  | lps : List ℚ → PyVal
  | noneV : PyVal
  | outputsObj : PyVal
deriving DecidableEq, Repr

/-- Python unpacking of a tuple into exactly three names: raises ValueError
when the arity differs. -/
def pyUnpack3 (l : List PyVal) : Except PyErr (PyVal × PyVal × PyVal) :=
  match l with
  | [a, b, c] => .ok (a, b, c)
  | l =>
    if 3 < l.length then .error (.valueError ("too many values to unpack"))
    else .error (.valueError ("not enough values to unpack"))

/-- Python unpacking of a tuple into exactly four names. -/
def pyUnpack4 (l : List PyVal) : Except PyErr (PyVal × PyVal × PyVal × PyVal) :=
  match l with
  | [a, b, c, d] => .ok (a, b, c, d)
  | l =>
    if 4 < l.length then .error (.valueError ("too many values to unpack"))
    else .error (.valueError ("not enough values to unpack"))

/-- Read a string out of a tuple slot. -/
def asStr : PyVal → Except PyErr String
  | .s v => .ok v
  | _ => .error (.typeError ("expected str"))

/-- Read a token id row out of a tuple slot. -/
def asIds : PyVal → Except PyErr (List Nat)
  | .ids v => .ok v
  | _ => .error (.typeError ("expected ids"))

/-- Read a log probability row out of a tuple slot. -/
def asLps : PyVal → Except PyErr (List ℚ)
  | .lps v => .ok v
  | _ => .error (.typeError ("expected logprobs"))

/-- Embeds BasicGenerator.generate (generate.py lines 40 to 94).  With
return_logprobs the function asserts that the token and log probability rows
have equal length (line 69) and returns the 4-tuple
(text, generated_ids, logprobs, outputs); without it the 4-tuple
(text, None, None, None).  The decoded text, the id row (batch row 0 of the
generated_ids tensor) and the log probabilities come from the model oracle;
outputs is an opaque object. -/
def generate (env : Env) (inputText : String) (maxLength : Nat)
    (returnLogprobs : Bool) : Except PyErr (List PyVal) :=
  if returnLogprobs then
    if (env.genLPIds inputText maxLength).length
        = (env.genLPLps inputText maxLength).length then
      .ok [PyVal.s (env.genLPText inputText maxLength),
           PyVal.ids (env.genLPIds inputText maxLength),
           PyVal.lps (env.genLPLps inputText maxLength),
           PyVal.outputsObj]
    else .error .assertionError
  else
    .ok [PyVal.s (env.genText inputText maxLength),
         PyVal.noneV, PyVal.noneV, PyVal.noneV]

/-- Pointwise sum of two equally long vectors (torch elementwise +). -/
def vecAdd (a b : List ℚ) : List ℚ := List.zipWith (fun x y => x + y) a b

/-- Pointwise max of two equally long vectors. -/
def vecMax (a b : List ℚ) : List ℚ := List.zipWith max a b

/-- torch.sum over the row dimension of one attention head: column sums. -/
def matColSum : List (List ℚ) → List ℚ
  | [] => []
  | [r] => r
  | r :: rest => vecAdd r (matColSum rest)

/-- torch.max over the row dimension of one attention head: column maxima. -/
def matColMax : List (List ℚ) → List ℚ
  | [] => []
  | [r] => r
  | r :: rest => vecMax r (matColMax rest)

/-- torch.mean(x, dim=0) for a stack of equally long vectors. -/
def meanDim0 (rows : List (List ℚ)) : List ℚ :=
  (matColSum rows).map (fun v => v / (rows.length : ℚ))

/-- The positional decay loop of the avg solver (lines 119 to 120):
position i of a vector of length n is divided by n - i. -/
def posDecayGo (n : Nat) : Nat → List ℚ → List ℚ
  | _, [] => []
  | i, x :: rest => x / ((n - i : ℕ) : ℚ) :: posDecayGo n (i + 1) rest

/-- Positional decay over a whole vector. -/
def posDecay (v : List ℚ) : List ℚ := posDecayGo v.length 0 v

/-- Embeds the avg branch of BasicGenerator.generate_attn (lines 116 to 120):
atten has shape (heads, rows, columns); torch.sum(atten, dim=1) sums each
head over its row (query) dimension, torch.mean(..., dim=0) then averages
over the heads, and the final loop divides position i by
(sequence length - i). -/
def avgSolverCode (atten : List (List (List ℚ))) : List ℚ :=
  posDecay (meanDim0 (atten.map matColSum))

/-- Modelled from the spec: the avg policy is described as, per token, a
sum over heads then a mean over layers, with the same positional decay
correction.  The spec leaves implicit how one scalar per position is read
off each head of a layer (each head holds a rows-by-columns matrix), so the
per position mass of a head is taken as its column sum, exactly as the
code does; the definition then sums those over the heads of each layer and
averages over the layers, which is what the spec words say. -/
def avgSolverSpecClaim (attnLayers : List (List (List (List ℚ)))) : List ℚ :=
  posDecay ((matColSum (attnLayers.map
    (fun layer => matColSum (layer.map matColSum)))).map
      (fun v => v / (attnLayers.length : ℚ)))

/-- Token merge loop shared by generate_attn (lines 102 to 109) and
keep_real_words (lines 671 to 680): each i with newUnit i = true or i = 0
opens a fresh [i, i] range, every other i extends the last range. -/
def mergeRanges (newUnit : Nat → Bool) (n : Nat) : List (Nat × Nat) :=
  (List.range n).foldl
    (fun acc i =>
      if i = 0 ∨ newUnit i then acc ++ [(i, i)]
      else
        match acc.getLast? with
        | some (a, b) => acc.dropLast ++ [(a, b + 1)]
        | none => acc)
    []

/-- Everything generate_attn computes before its entropy block (lines 96 to
145): the merged token units, the solver-reduced per token attention, the
end-of-sequence renormalisation and the optional per unit log probability. -/
structure AttnPre where
  text : String
  seqlist : List String
  attns : List ℚ
  seqlogprobs : Option (List ℚ)
deriving DecidableEq, Repr

/-- The solver dispatch of generate_attn (lines 113 to 124). -/
def attnSolve (atten : List (List (List ℚ))) (solver : String) :
    Except PyErr (List ℚ) :=
  if solver = "max" then .ok (meanDim0 (atten.map matColMax))
  else if solver = "avg" then .ok (avgSolverCode atten)
  else if solver = "last_token" then
    match atten.mapM (fun m => pyGet m (-1)) with
    | .error e => .error e
    | .ok rows => .ok (meanDim0 rows)
  else .error (.notImplementedError "")

/-- Embeds BasicGenerator.generate_attn up to and including the log
probability merge (lines 96 to 145).  The divisions by an all-zero
attention sum that torch would turn into inf or NaN are rational divisions
by zero (yielding 0); no claim depends on those degenerate values. -/
def generateAttnPre (env : Env) (inputText : String) (maxLength : Nat)
    (solver : String) (useLogprob : Bool) : Except PyErr AttnPre :=
  match generate env inputText maxLength true with
  | .error e => .error e
  | .ok tup =>
    match pyUnpack4 tup with
    | .error e => .error e
    | .ok (v1, v2, v3, _) =>
      match asStr v1, asIds v2, asLps v3 with
      | .ok text, .ok ids, .ok logprobs =>
        let tokens :=
          (env.convertIdsToTokens ids).map (fun t => pyReplace t ("Ċ") ("\n"))
        let ranges := mergeRanges
          (fun i =>
            (pyStartsWith (tokens.getD i "") env.spaceToken)
            || decide (ids.getD i 0 = env.newlineToken)
            || decide (tokens.getD (i - 1) "" = env.eosToken))
          tokens.length
        let atten := env.attnLast ids
        match attnSolve atten solver with
        | .error e => .error e
        | .ok meanAtten0 =>
          match
            (if 1 < meanAtten0.length then
              match pyGet tokens 0 with
              | .error e => .error e
              | .ok t0 =>
                if t0 = env.eosToken then
                  .ok (meanAtten0.map
                    (fun v => v / (pySlice meanAtten0 1 meanAtten0.length).sum))
                else .ok meanAtten0
            else .ok meanAtten0 : Except PyErr (List ℚ)) with
          | .error e => .error e
          | .ok meanAtten =>
            let seqlist := ranges.map (fun r =>
              pyReplace (joinSep "" (pySlice tokens r.1 (r.2 + 1)))
                env.spaceToken "")
            let attns := ranges.map (fun r =>
              (pySlice meanAtten r.1 (r.2 + 1)).sum)
            let seqlogprobs :=
              if useLogprob then
                some (ranges.map (fun r =>
                  (pySlice logprobs r.1 (r.2 + 1)).sum / ((r.2 - r.1 + 1 : ℕ) : ℚ)))
              else none
            .ok ⟨text, seqlist, attns, seqlogprobs⟩
      | _, _, _ => .error (.typeError ("generate tuple"))

/-- The 5-tuple generate_attn returns. -/
structure AttnOut where
  text : String
  seqlist : List String
  attns : List ℚ
  seqlogprobs : Option (List ℚ)
  seqentropies : Option (List ℚ)
deriving DecidableEq, Repr

/-- Embeds BasicGenerator.generate_attn (lines 96 to 162).  Its entropy
block (lines 148 to 158) iterates over the name scores, which is not
defined anywhere in the function or its class, so reaching the block with
use_entropy raises NameError; the embedding records that as an error. -/
def generateAttn (env : Env) (inputText : String) (maxLength : Nat)
    (solver : String) (useEntropy useLogprob : Bool) :
    Except PyErr AttnOut :=
  match generateAttnPre env inputText maxLength solver useLogprob with
  | .error e => .error e
  | .ok pre =>
    if useEntropy then .error (.nameError ("scores"))
    else .ok ⟨pre.text, pre.seqlist, pre.attns, pre.seqlogprobs, none⟩

/-- Inner while loop of TokenRAG.modifier (lines 437 to 443): consume tokens
as long as each one is found in the sentence; the running position is reset
to the find offset plus the token length exactly as the source writes it.
The fuel starts at the token count, which the cursor can never outrun. -/
def matchSentGo (tokens : List String) (sent : String) :
    Nat → Nat → Nat → Nat
  | 0, tr, _ => tr
  | fuel + 1, tr, pos =>
    if h : tr < tokens.length then
      let tok := tokens.get ⟨tr, h⟩
      let apr := pyFind (pySliceFrom sent (pos : Int)) tok
      if apr = -1 then tr
      else matchSentGo tokens sent fuel (tr + 1) (apr.toNat + tok.length)
    else tr

/-- The while loop entered at token cursor tr with position 0. -/
def matchSentAux (tokens : List String) (sent : String) (tr pos : Nat) : Nat :=
  matchSentGo tokens sent (tokens.length - tr) tr pos

/-- Placeholder substitution loop shared by TokenRAG.modifier (lines 462 to
470) and EntityRAG.modifier (lines 592 to 600): every unit whose uncertainty
exceeds the threshold is spliced out for the literal [xxx] marker. -/
def replaceLoop (thr : ℚ) : String → Int → List (Option ℚ × String) → String
  | curr, _, [] => curr
  | curr, pos, (prob, unitStr) :: rest =>
    let apr := pyFind (pySliceFrom curr pos) unitStr + pos
    if optGt prob thr then
      replaceLoop thr
        (pySliceTo curr apr ++ "[xxx]"
          ++ pySliceFrom curr (apr + (unitStr.length : Int)))
        (apr + 5) rest
    else replaceLoop thr curr (apr + (unitStr.length : Int)) rest

/-- Sentence level reduction dict .get(self.sentence_solver, lambda x: 0)
(lines 446 to 452 and 581 to 587): an unrecognized policy name yields the
constant 0 reducer instead of raising. -/
def sentenceReduce (solver : String) (probs : List (Option ℚ)) :
    Except PyErr (Option ℚ) :=
  if solver = "avg" then .ok (npMean probs)
  else if solver = "max" then npMax probs
  else if solver = "min" then npMin probs
  else .ok (some 0)

/-- Entity level reduction dict (lines 567 to 572), which adds the first
policy; unrecognized names again yield the constant 0 reducer. -/
def entityReduce (solver : String) (probs : List ℚ) : Except PyErr (Option ℚ) :=
  if solver = "avg" then .ok (npMean (probs.map some))
  else if solver = "max" then npMax (probs.map some)
  else if solver = "min" then npMin (probs.map some)
  else if solver = "first" then .ok (some (probs.headD 0))
  else .ok (some 0)

/-- Sentence loop of TokenRAG.modifier (lines 434 to 475); done holds the
sentences already cleared, tid the token cursor. -/
def modTokGo (env : Env) (cfg : Cfg) (text : String) (tokens : List String)
    (logprobs : List ℚ) :
    List String → List String → Nat →
      Except PyErr (String × Option String × Bool)
  | _, [], _ => .ok (text, none, false)
  | done, sent :: rest, tid =>
    let tr := matchSentAux tokens sent tid 0
    let probs := (pySlice logprobs (tid : Int) ((tr : Int) + 1)).map
      (fun v => 1 - env.expf v)
    match sentenceReduce cfg.sentence_solver (probs.map some) with
    | .error e => .error e
    | .ok p =>
      if optGt p cfg.hallucination_threshold then
        let prev := if done.isEmpty then "" else joinSep " " done
        let curr := replaceLoop cfg.hallucination_threshold sent 0
          ((probs.map some).zip (pySlice tokens (tid : Int) ((tr : Int) + 1)))
        .ok (prev, some curr, true)
      else modTokGo env cfg text tokens logprobs (done ++ [sent]) rest (tr + 1)

/-- Stripped nonempty sentence list shared by the detectors (lines 431 to
432 and 532 to 533). -/
def sentencesOf (env : Env) (text : String) : List String :=
  ((env.sents text).map pyStrip).filter (fun s => decide (0 < s.length))

/-- Embeds TokenRAG.modifier (lines 430 to 475). -/
def modifierTok (env : Env) (cfg : Cfg) (text : String) (tokens : List String)
    (logprobs : List ℚ) : Except PyErr (String × Option String × Bool) :=
  modTokGo env cfg text tokens logprobs [] (sentencesOf env text) 0

/-- Python loop assigning belonging[j] = v for count positions from start. -/
def pySetRangeGo (v : Int) : Nat → Nat → List Int → Except PyErr (List Int)
  | 0, _, l => .ok l
  | count + 1, start, l =>
    match pySet l start v with
    | .error e => .error e
    | .ok l2 => pySetRangeGo v count (start + 1) l2

/-- Python loop assigning belonging[j] = v for j in range(start, stop). -/
def pySetRange (l : List Int) (start stop : Nat) (v : Int) :
    Except PyErr (List Int) :=
  pySetRangeGo v (stop - start) start l

/-- Token ownership map construction of EntityRAG.modifier (lines 541 to
548).  The source asserts apr != -1 where apr already is the find result
plus the running position, so a failed find at a positive position slips
past the assert exactly as it does in Python. -/
def belongingGo (text : String) :
    List String → Nat → Nat → List Int → Except PyErr (List Int)
  | [], _, _, bel => .ok bel
  | tok :: rest, tid, pos, bel =>
    let apr : Int := pyFind (pySliceFrom text (pos : Int)) tok + pos
    if apr = -1 then .error .assertionError
    else
      match pySetRange bel pos (apr.toNat + tok.length) tid with
      | .error e => .error e
      | .ok bel2 => belongingGo text rest (tid + 1) (apr.toNat + tok.length) bel2

/-- Inner entity interval loop of EntityRAG.modifier (lines 553 to 559) for
one sentence, looking up the owning token of the first and last character. -/
def entIntvGo (text : String) (belonging : List Int) :
    List String → Int → Except PyErr (List (Int × Int))
  | [], _ => .ok []
  | ent :: rest, pos =>
    let apr : Int := pyFind (pySliceFrom text pos) ent + pos
    match pyGet belonging apr with
    | .error e => .error e
    | .ok el =>
      match pyGet belonging (apr + (ent.length : Int) - 1) with
      | .error e => .error e
      | .ok er =>
        match entIntvGo text belonging rest (apr + (ent.length : Int)) with
        | .error e => .error e
        | .ok tmp => .ok ((el, er) :: tmp)

/-- Entity intervals per sentence (lines 550 to 560). -/
def entityIntvBuild (text : String) (belonging : List Int) :
    List (String × List String) → Except PyErr (List (List (Int × Int)))
  | [] => .ok []
  | (sent, ents0) :: rest =>
    match entIntvGo text belonging ents0 (pyFind text sent) with
    | .error e => .error e
    | .ok tmp =>
      match entityIntvBuild text belonging rest with
      | .error e => .error e
      | .ok r => .ok (tmp :: r)

/-- Entity solver reduction over the log probability slice of one entity
interval (lines 565 to 573). -/
def entProbsGo (cfg : Cfg) (logprobs : List ℚ) :
    List (Int × Int) → Except PyErr (List (Option ℚ))
  | [] => .ok []
  | itv :: rest =>
    match entityReduce cfg.entity_solver (pySlice logprobs itv.1 (itv.2 + 1)) with
    | .error e => .error e
    | .ok p =>
      match entProbsGo cfg logprobs rest with
      | .error e => .error e
      | .ok r => .ok (p :: r)

/-- entity_prob, per sentence (lines 562 to 574). -/
def entityProbsList (cfg : Cfg) (logprobs : List ℚ) :
    List (List (Int × Int)) → Except PyErr (List (List (Option ℚ)))
  | [] => .ok []
  | itvs :: rest =>
    match entProbsGo cfg logprobs itvs with
    | .error e => .error e
    | .ok tmp =>
      match entityProbsList cfg logprobs rest with
      | .error e => .error e
      | .ok r => .ok (tmp :: r)

/-- Stages one to five of EntityRAG.modifier (lines 531 to 574): sentence
segmentation, entity extraction, the token ownership map, entity intervals
and the entity solver reduction; exposed as its own definition so the per
entity uncertainty can be named in theorem statements. -/
def entityProbsOf (env : Env) (cfg : Cfg) (text : String)
    (tokens : List String) (logprobs : List ℚ) :
    Except PyErr (List (List (Option ℚ))) :=
  match belongingGo text tokens 0 0
      (List.replicate (chars text).length (-1)) with
  | .error e => .error e
  | .ok bel =>
    match entityIntvBuild text bel
        ((sentencesOf env text).zip ((sentencesOf env text).map env.ents)) with
    | .error e => .error e
    | .ok intv => entityProbsList cfg logprobs intv

/-- Flagging loop of EntityRAG.modifier (lines 576 to 603); a sentence with
no entities is skipped. -/
def modEntGo (env : Env) (cfg : Cfg) (text : String) :
    List String → List String → List (List String) → List (List (Option ℚ)) →
      Except PyErr (String × Option String × Bool)
  | _, [], _, _ => .ok (text, none, false)
  | _, _ :: _, [], _ => .ok (text, none, false)
  | _, _ :: _, _ :: _, [] => .ok (text, none, false)
  | done, sent :: rest, ents0 :: restE, eprobs :: restP =>
    if eprobs.isEmpty then modEntGo env cfg text (done ++ [sent]) rest restE restP
    else
      let probs := eprobs.map (fun po => po.map (fun v => 1 - env.expf v))
      match sentenceReduce cfg.sentence_solver probs with
      | .error e => .error e
      | .ok p =>
        if optGt p cfg.hallucination_threshold then
          let prev := if done.isEmpty then "" else joinSep " " done
          let curr := replaceLoop cfg.hallucination_threshold sent 0
            (probs.zip ents0)
          .ok (prev, some curr, true)
        else modEntGo env cfg text (done ++ [sent]) rest restE restP

/-- Embeds EntityRAG.modifier (lines 531 to 603); the sentence and entity
lists feeding the flagging loop are the same pure functions of the inputs
that entityProbsOf computes internally. -/
def modifierEnt (env : Env) (cfg : Cfg) (text : String) (tokens : List String)
    (logprobs : List ℚ) : Except PyErr (String × Option String × Bool) :=
  match entityProbsOf env cfg text tokens logprobs with
  | .error e => .error e
  | .ok eps =>
    modEntGo env cfg text [] (sentencesOf env text)
      ((sentencesOf env text).map env.ents) eps

/-- A retriever backend object held by the gateway; errObject models the
NotImplementedError instance that _retriever_selector returns (rather than
raises) for an unrecognized kind (line 281). -/
inductive Retriever where
  | bm25 : Retriever
  | sgpt : Retriever
  | dbvs : Retriever
  | errObject : String → Retriever
deriving DecidableEq, Repr

/-- The Python value retriever.__class__.__name__ consulted by _retrieve. -/
def className : Retriever → String
  | .bm25 => "BM25"
  | .sgpt => "SGPT"
  | .dbvs => "DatabricksVectorSearch"
  | .errObject _ => "NotImplementedError"

/-- Embeds BasicRAG._retriever_selector (lines 266 to 283).  For an
unrecognized kind the source has return NotImplementedError(...), not a
raise, so the exception object is returned as the retriever and the
function is total. -/
def retrieverSelector (retrieverType : String) : Retriever :=
  if retrieverType = "BM25" then .bm25
  else if retrieverType = "SGPT" then .sgpt
  else if retrieverType = "DatabricksVectorSearch" then .dbvs
  else .errObject ("Retriever not supported")

/-- Embeds the retriever construction loop of BasicRAG.__init__ (lines 197
to 211); a config entry is (name, retriever_type, description) and the
result keeps (name, description, retriever). -/
def initRetrievers (configs : List (String × String × String)) :
    List (String × String × Retriever) :=
  configs.map (fun c => (c.1, c.2.2, retrieverSelector c.2.1))

/-- Dispatch part of BasicRAG._retrieve (lines 243 to 264), counter aside:
dispatch on the class name of the stored retriever object, raising
NotImplementedError for anything that is not one of the three backends; the
per query result row docs[0] is a Python indexing that raises on an empty
oracle answer.  The BM25 oracle returns only the docs half of its
(doc ids, docs) pair. -/
def retrieveInnerRes (env : Env) (query : String) (r : Retriever)
    (topk maxQueryLength : Nat) : Except PyErr (List String) :=
  let t := className r
  if t = "BM25" then pyGet (env.bm25 query topk maxQueryLength) 0
  else if t = "SGPT" then pyGet (env.sgpt query topk) 0
  else if t = "DatabricksVectorSearch" then pyGet (env.dbvs query topk) 0
  else .error (.notImplementedError (t ++ " not supported..."))

/-- Embeds BasicRAG._retrieve (lines 241 to 264): the retrieve counter is
incremented on entry, before the dispatch can raise. -/
def retrieveInner (env : Env) (query : String) (r : Retriever)
    (topk maxQueryLength counter : Nat) : Except PyErr (List String) × Nat :=
  (retrieveInnerRes env query r topk maxQueryLength, counter + 1)

/-- Python dict lookup self.retrievers[name], None when the key misses. -/
def lookupRetriever (rs : List (String × String × Retriever)) (name : String) :
    Option (String × String × Retriever) :=
  rs.find? (fun p => p.1 == name)

/-- The index name parsed from one generated bullet line (line 237). -/
def parseIndexName (ret : String) : String :=
  pyStrip ((pySplit ret ("-")).getLastD "")

/-- The index selection prompt of BasicRAG.retrieve (lines 224 to 230). -/
def buildIndexPrompt (query : String)
    (rs : List (String × String × Retriever)) : String :=
  "Return which vector indices to select based on the query and index descriptions.\n"
    ++ "User query: " ++ query ++ "\n"
    ++ "Vector Index Summary:\n"
    ++ joinSep "" (rs.map (fun p => "- " ++ p.1 ++ ": " ++ p.2.1 ++ "\n"))
    ++ "Output ONLY your index selection(s) in bullet points (\x27-\x27), separated by a \x27\\n\x27:"

/-- Fan-out loop of the multi index branch (lines 235 to 237): every parsed
bullet line is looked up in the retrievers dict (KeyError when absent) and
its inner retrieval appended. -/
def multiLoop (env : Env) (rs : List (String × String × Retriever))
    (query : String) (topk mql : Nat) :
    List String → List String → Nat → Except PyErr (List String) × Nat
  | [], docs, c => (.ok docs, c)
  | line :: rest, docs, c =>
    match lookupRetriever rs (parseIndexName line) with
    | none => (.error (.keyError (parseIndexName line)), c)
    | some p =>
      match retrieveInner env query p.2.2 topk mql c with
      | (.error e, c2) => (.error e, c2)
      | (.ok d, c2) => multiLoop env rs query topk mql rest (docs ++ d) c2

/-- Embeds BasicRAG.retrieve (lines 215 to 239).  The retrieve counter is
incremented on entry; single index mode retrieves from the first configured
retriever, multi index mode asks the generator which indices to use and
fans out over the parsed names. -/
def retrieve (env : Env) (rs : List (String × String × Retriever))
    (multi : Bool) (query : String) (topk mql counter : Nat) :
    Except PyErr (List String) × Nat :=
  let c := counter + 1
  if !multi then
    match rs with
    | [] => (.error .indexError, c)
    | r0 :: _ => retrieveInner env query r0.2.2 topk mql c
  else
    match generate env (buildIndexPrompt query rs) 64 false with
    | .error e => (.error e, c)
    | .ok tup =>
      match pyGet tup 0 with
      | .error e => (.error e, c)
      | .ok v =>
        match asStr v with
        | .error e => (.error e, c)
        | .ok mo => multiLoop env rs query topk mql (pySplit (pyStrip mo) ("\n")) [] c

/-- Elementwise sum of two equally shaped matrices. -/
def matAdd (a b : List (List ℚ)) : List (List ℚ) := List.zipWith vecAdd a b

/-- Sum of a stack of matrices. -/
def matStackSum : List (List (List ℚ)) → List (List ℚ)
  | [] => []
  | [m] => m
  | m :: rest => matAdd m (matStackSum rest)

/-- torch.mean over the head dimension of the last layer attention
(keep_real_words line 690). -/
def meanHeads (hs : List (List (List ℚ))) : List (List ℚ) :=
  (matStackSum hs).map (fun row => row.map (fun v => v / (hs.length : ℚ)))

/-- Inner accumulation of one merged unit of keep_real_words (lines 695 to
702): the normalized preceding-context attention row of each member
position, padded to the input length.  A division by an all-zero row sum is
a rational division by zero (torch would produce NaN). -/
def krwAttLoop (attenM : List (List ℚ)) (inputLength r0 : Nat) :
    List Nat → List ℚ → Except PyErr (List ℚ)
  | [], att => .ok att
  | i :: rest, att =>
    if i = 0 then krwAttLoop attenM inputLength r0 rest att
    else
      match pyGet attenM ((i : Int) - 1) with
      | .error e => .error e
      | .ok row =>
        let v := (row.take r0).map (fun x => x / (row.take r0).sum)
        let t := v ++ List.replicate (inputLength - v.length) 0
        krwAttLoop attenM inputLength r0 rest (vecAdd att t)

/-- One merged unit of keep_real_words attention (lines 692 to 706),
re-merged over the unit ranges. -/
def krwAttForRange (attenM : List (List ℚ)) (inputLength : Nat)
    (ranges : List (Nat × Nat)) (r : Nat × Nat) : Except PyErr (List ℚ) :=
  match krwAttLoop attenM inputLength r.1 (List.range' r.1 (r.2 + 1 - r.1))
      (List.replicate inputLength 0) with
  | .error e => .error e
  | .ok att =>
    let att2 := att.map (fun x => x / ((r.2 - r.1 + 1 : ℕ) : ℚ))
    .ok (ranges.map (fun rr => (pySlice att2 (rr.1 : Int) ((rr.2 : Int) + 1)).sum))

/-- The per unit attention list of keep_real_words (lines 691 to 706). -/
def krwAttnsGo (attenM : List (List ℚ)) (inputLength : Nat)
    (ranges : List (Nat × Nat)) :
    List (Nat × Nat) → Except PyErr (List (List ℚ))
  | [] => .ok []
  | r :: rest =>
    match krwAttForRange attenM inputLength ranges r with
    | .error e => .error e
    | .ok a =>
      match krwAttnsGo attenM inputLength ranges rest with
      | .error e => .error e
      | .ok l => .ok (a :: l)

/-- forward_attns accumulation (lines 710 to 716): sum the merged attention
vectors of the hit positions and count them; curr_st may be negative, in
which case Python indexing wraps. -/
def krwForwardGo (attns : List (List ℚ)) (currSt : Int) :
    List Nat → Nat → List ℚ → Nat → Except PyErr (List ℚ × Nat)
  | [], _, acc, cnt => .ok (acc, cnt)
  | hv :: rest, i, acc, cnt =>
    if hv = 1 then
      match pyGet attns (currSt + i) with
      | .error e => .error e
      | .ok a => krwForwardGo attns currSt rest (i + 1) (vecAdd acc a) (cnt + 1)
    else krwForwardGo attns currSt rest (i + 1) acc cnt

/-- The skip test of the real_pairs loop (line 736): positions at or past
curr_st whose hit flag is truthy are left out. -/
def realPairsSkip (currSt : Int) (currHit : List Nat) (i : Nat) :
    Except PyErr Bool :=
  if currSt ≤ (i : Int) then
    match pyGet currHit ((i : Int) - currSt) with
    | .error e => .error e
    | .ok hv => .ok (decide (hv ≠ 0))
  else .ok false

/-- real_pairs construction (lines 733 to 739): walk the merged tokens left
to right, skip positions inside the hallucinated span whose hit flag is
set, keep content word tokens with their attention value and position. -/
def realPairsGo (fwd : List ℚ) (currSt : Int) (currHit : List Nat)
    (matchW : String → Bool) :
    List String → Nat → Except PyErr (List (ℚ × String × Nat))
  | [], _ => .ok []
  | tok :: toks, i =>
    match pyGet fwd (i : Int) with
    | .error e => .error e
    | .ok att =>
      match realPairsSkip currSt currHit i with
      | .error e => .error e
      | .ok skip =>
        match realPairsGo fwd currSt currHit matchW toks (i + 1) with
        | .error e => .error e
        | .ok rest =>
          if skip then .ok rest
          else if matchW tok then .ok ((att, tok, i) :: rest)
          else .ok rest

/-- Sort relation of sorted(real_pairs, key=x.0, reverse=True). -/
def byAttnDesc (a b : ℚ × String × Nat) : Prop := b.1 ≤ a.1

/-- Sort relation of the final sort by original position. -/
def byIdx (a b : ℚ × String × Nat) : Prop := a.2.2 ≤ b.2.2

instance : DecidableRel byAttnDesc :=
  fun a b => inferInstanceAs (Decidable (b.1 ≤ a.1))

instance : DecidableRel byIdx :=
  fun a b => inferInstanceAs (Decidable (a.2.2 ≤ b.2.2))

instance : IsTotal (ℚ × String × Nat) byAttnDesc :=
  ⟨fun a b => le_total b.1 a.1⟩

instance : IsTrans (ℚ × String × Nat) byAttnDesc :=
  ⟨fun _ _ _ h1 h2 => le_trans h2 h1⟩

instance : IsTotal (ℚ × String × Nat) byIdx :=
  ⟨fun a b => le_total a.2.2 b.2.2⟩

instance : IsTrans (ℚ × String × Nat) byIdx :=
  ⟨fun _ _ _ h1 h2 => le_trans h1 h2⟩

/-- Stages of AttnWeightRAG.keep_real_words up to the real_pairs list
(lines 661 to 739): re-encode the forward context, merge sub-word tokens,
average the last layer attention over heads, accumulate the attention mass
flowing into the hallucinated hit positions, and keep the content word
candidates in original order. -/
def keepRealWordsPairs (env : Env) (_cfg : Cfg) (prevText : String)
    (currTokens : List String) (currHit : List Nat) :
    Except PyErr (List (ℚ × String × Nat)) :=
  let currText := joinSep " " currTokens
  let allText := prevText ++ " " ++ currText
  let inputIds := env.encodeIds allText
  let inputLength := inputIds.length
  let tokensTmp := env.convertIdsToTokens inputIds
  let ranges := mergeRanges
    (fun i => (pyStartsWith (tokensTmp.getD i "") env.spaceToken)
      || decide (inputIds.getD i 0 = env.newlineToken)) tokensTmp.length
  let tokens := ranges.map (fun r =>
    pyReplace (joinSep "" (pySlice tokensTmp (r.1 : Int) ((r.2 : Int) + 1)))
      env.spaceToken "")
  let currSt : Int := (tokens.length : Int) - (currTokens.length : Int)
  let attenM := meanHeads (env.attnLast inputIds)
  match krwAttnsGo attenM inputLength ranges ranges with
  | .error e => .error e
  | .ok attns =>
    match krwForwardGo attns currSt currHit 0
        (List.replicate tokens.length 0) 0 with
    | .error e => .error e
    | .ok fc =>
      let fwd := fc.1.map (fun v => v / (fc.2 : ℚ))
      let rw := env.realWords allText
      realPairsGo fwd currSt currHit
        (fun t => rw.any (fun w => pyIn w t)) tokens 0

/-- top_k selection size (lines 743 to 746): the name top_k is only bound
when one of the two config keys is present, otherwise its later use raises
NameError; int() truncates, which is the floor for the nonnegative
products the loop produces. -/
def keepRealWordsTopK (cfg : Cfg) (n : Nat) : Except PyErr Nat :=
  match cfg.retrieve_keep_top_k with
  | some k => .ok (min k n)
  | none =>
    match cfg.retrieve_keep_ratio with
    | some r => .ok (Int.toNat (Int.floor ((n : ℚ) * r)))
    | none => .error (.nameError ("top_k"))

/-- The sort, take and re-sort of keep_real_words (lines 748 to 750). -/
def keepRealWordsSel (env : Env) (cfg : Cfg) (prevText : String)
    (currTokens : List String) (currHit : List Nat) :
    Except PyErr (List (ℚ × String × Nat)) :=
  match keepRealWordsPairs env cfg prevText currTokens currHit with
  | .error e => .error e
  | .ok rp =>
    match keepRealWordsTopK cfg rp.length with
    | .error e => .error e
    | .ok k =>
      .ok (List.insertionSort byIdx ((List.insertionSort byAttnDesc rp).take k))

/-- Embeds AttnWeightRAG.keep_real_words (lines 661 to 751). -/
def keepRealWords (env : Env) (cfg : Cfg) (prevText : String)
    (currTokens : List String) (currHit : List Nat) : Except PyErr String :=
  match keepRealWordsSel env cfg prevText currTokens currHit with
  | .error e => .error e
  | .ok sel => .ok (joinSep " " (sel.map (fun p => p.2.1)))

/-- Sentence to token range scan of AttnWeightRAG.modifier (lines 622 to
626): grow the window until the joined tokens contain the sentence; when no
window matches, tr stays at the sentence start cursor.  Fuelled by the
token count, which the growing window index can never outrun. -/
def findSentGo (tokens : List String) (sent : String) (tl : Nat) :
    Nat → Nat → Nat
  | 0, _ => tl
  | fuel + 1, i =>
    if i < tokens.length then
      if pyIn sent (joinSep " " (pySlice tokens (tl : Int) (i : Int))) then i
      else findSentGo tokens sent tl fuel (i + 1)
    else tl

/-- The range scan entered at window index i. -/
def findSentRange (tokens : List String) (sent : String) (tl i : Nat) : Nat :=
  findSentGo tokens sent tl (tokens.length - i + 1) i

/-- Per token composite value of AttnWeightRAG.modifier (line 631):
normalized attention times weight times sentence token count, for count
positions from i. -/
def attnValueGo (attnsN weight : List ℚ) (tl tr : Nat) :
    Nat → Nat → Except PyErr (List ℚ)
  | 0, _ => .ok []
  | count + 1, i =>
    match pyGet attnsN ((i : Int) - (tl : Int)) with
    | .error e => .error e
    | .ok a =>
      match pyGet weight (i : Int) with
      | .error e => .error e
      | .ok w =>
        match attnValueGo attnsN weight tl tr count (i + 1) with
        | .error e => .error e
        | .ok rest => .ok ((a * w * ((tr - tl : ℕ) : ℚ)) :: rest)

/-- check_real_words refinement (lines 650 to 652): zero the hit flag of
every token that matches no content word of the sentence. -/
def attnThresGo (tokens : List String) (matchW : String → Bool) (tl : Nat) :
    List Nat → Nat → Except PyErr (List Nat)
  | [], _ => .ok []
  | tv :: rest, i =>
    match pyGet tokens ((tl : Int) + (i : Int)) with
    | .error e => .error e
    | .ok tok =>
      match attnThresGo tokens matchW tl rest (i + 1) with
      | .error e => .error e
      | .ok r => .ok ((if matchW tok then tv else 0) :: r)

/-- Sentence loop of AttnWeightRAG.modifier (lines 616 to 659); the final
sentence owns every remaining token unconditionally. -/
def attnModGo (env : Env) (cfg : Cfg) (text : String) (tokens : List String)
    (attentions weight : List ℚ) :
    List String → List String → Nat →
      Except PyErr (Bool × String × Option (List String) × Option (List Nat))
  | _, [], _ => .ok (false, text, none, none)
  | done, sent :: rest, tid =>
    let tl := tid
    let tr := if rest.isEmpty then tokens.length
      else findSentRange tokens sent tid (tid + 1)
    let attns0 := pySlice attentions (tl : Int) (tr : Int)
    let attnsN := attns0.map (fun a => a / attns0.sum)
    match attnValueGo attnsN weight tl tr (tr - tl) tl with
    | .error e => .error e
    | .ok value =>
      let thres := value.map
        (fun v => if cfg.hallucination_threshold < v then (1 : Nat) else 0)
      if thres.contains 1 then
        match (if cfg.check_real_words then
                 attnThresGo tokens
                   (fun t => (env.realWords sent).any (fun w => pyIn w t))
                   tl thres 0
               else .ok thres : Except PyErr (List Nat)) with
        | .error e => .error e
        | .ok thres2 =>
          let prev := if done.isEmpty then "" else joinSep " " done
          .ok (true, prev, some (pySlice tokens (tl : Int) (tr : Int)),
               some thres2)
      else attnModGo env cfg text tokens attentions weight (done ++ [sent]) rest tr

/-- Embeds AttnWeightRAG.modifier (lines 613 to 659); the sentences keep
their raw text (no strip at line 614). -/
def attnModifier (env : Env) (cfg : Cfg) (text : String)
    (tokens : List String) (attentions weight : List ℚ) :
    Except PyErr (Bool × String × Option (List String) × Option (List Nat)) :=
  let sentences := (env.sents text).filter (fun s => decide (0 < s.length))
  attnModGo env cfg text tokens attentions weight [] sentences 0

/-- Embeds BasicRAG.get_last_sentence (lines 290 to 293). -/
def getLastSentence (env : Env) (text : String) : String :=
  (sentencesOf env text).getLastD ""

/-- Embeds fetch_last_n_tokens (lines 792 to 798); tokens[-num:] with
num = 0 is the whole list in Python. -/
def fetchLastNTokens (env : Env) (text : String) (num : Nat) : String :=
  let toks := env.tokenize text
  if toks.length ≤ num then text
  else joinSep " " (pySlice toks (-(num : Int)) (toks.length : Int))

/-- Query formulation dispatch of AttnWeightRAG.inference (lines 800 to
834); the curr_tokens and curr_hit rows the modifier returns have equal
length, which the current_wo_wrong zip relies on. -/
def attnQueryFormulation (env : Env) (cfg : Cfg)
    (question text ptext : String) (currTokens : List String)
    (currHit : List Nat) : Except PyErr String :=
  let forwardAll := joinSep " "
    ([question, text, ptext].filter (fun s => decide (0 < s.length)))
  if cfg.query_formulation = "current" then .ok (joinSep " " currTokens)
  else if cfg.query_formulation = "current_wo_wrong" then
    .ok (joinSep " " (List.zipWith
      (fun tok hv => if hv = 0 then tok else "") currTokens currHit))
  else if cfg.query_formulation = "forward_all" then .ok forwardAll
  else if cfg.query_formulation = "last_sentence" then
    .ok (getLastSentence env forwardAll)
  else if cfg.query_formulation = "last_n_tokens" then
    match cfg.retrieve_keep_top_k with
    | none => .error .assertionError
    | some k => .ok (fetchLastNTokens env forwardAll k)
  else if cfg.query_formulation = "real_words" then
    keepRealWords env cfg (question ++ " " ++ text ++ " " ++ ptext)
      currTokens currHit
  else .error (.notImplementedError
    (cfg.query_formulation ++ " not supported for QFS..."))

/-- One loop iteration outcome: continue with the new state, or a mid-body
break that skips the stop check (FixLengthRAG line 410). -/
inductive LoopStep (σ : Type) where
  | cont : σ → LoopStep σ
  | brk : σ → LoopStep σ

/-- The stop condition checked at the end of every full iteration (lines
415 to 422, 516 to 523 and 870 to 877): answer token count above the
budget, no growth of the answer text, or the terminal sentinel phrase. -/
def stopCheck (env : Env) (gml oldLen : Nat) (text : String) : Bool :=
  decide (gml < env.encodeLen text) || decide (text.length ≤ oldLen)
    || pyIn ("the answer is") text

/-- The while True shape shared by the inference loops: run the body, stop
on an uncaught error or a break, otherwise consult the stop condition on
the updated answer.  Fuel bounds the iterations that are unrolled; none
means the loop was still running when the fuel ran out. -/
def dragLoop {σ : Type} (body : Nat → σ → Except PyErr (LoopStep σ))
    (textOf : σ → String) (env : Env) (gml : Nat) :
    Nat → Nat → σ → Option (Except PyErr σ)
  | 0, _, _ => none
  | fuel + 1, i, st =>
    match body i st with
    | .error e => some (.error e)
    | .ok (.brk st2) => some (.ok st2)
    | .ok (.cont st2) =>
      if stopCheck env gml (textOf st).length (textOf st2) then some (.ok st2)
      else dragLoop body textOf env gml fuel (i + 1) st2

/-- The demonstration prefix of every prompt. -/
def demoPrompt (demo : List String) : String :=
  joinSep "" (demo.map (fun d => d ++ "\n"))

/-- The numbered context block built from retrieved passages. -/
def docsBlock (docs : List String) : String :=
  joinSep "" (docs.enum.map
    (fun p => "[" ++ toString (p.1 + 1) ++ "] " ++ p.2 ++ "\n"))

/-- One iteration of TokenRAG.inference (lines 480 to 523).  The generate
call at line 484 unpacks the returned 4-tuple into three names, which
raises before anything later in the body can run; the ok branch of that
unpack is unreachable because pyUnpack3 of a 4-list always errors.  The
modifier argument records that self.modifier dispatches dynamically
(EntityRAG reuses this loop with its own modifier). -/
def tokenBody (env : Env) (cfg : Cfg)
    (_rs : List (String × String × Retriever)) (_multi : Bool)
    (_modf : String → List String → List ℚ →
      Except PyErr (String × Option String × Bool))
    (caseStr : String) (demo : List String) (_i : Nat) (text : String) :
    Except PyErr (LoopStep String) :=
  let prompt := demoPrompt demo ++ caseStr ++ " " ++ text
  match generate env prompt cfg.generate_max_length true with
  | .error e => .error e
  | .ok tup =>
    match pyUnpack3 tup with
    | .error e => .error e
    | .ok _ => .error (.typeError ("unreachable"))

/-- One iteration of FixLengthRAG.inference (lines 385 to 422); the state
carries the answer text and the running retrieve question.  Both generate
calls (lines 395 and 402) unpack the returned 4-tuple into three names, so
an iteration that reaches them raises; the retrieval still runs first and
its failure would propagate. -/
def fixLengthBody (env : Env) (cfg : Cfg)
    (rs : List (String × String × Retriever)) (multi : Bool)
    (caseStr : String) (demo : List String) (_i : Nat)
    (st : String × String) : Except PyErr (LoopStep (String × String)) :=
  match retrieve env rs multi st.2 cfg.retrieve_topk 64 0 with
  | (.error e, _) => .error e
  | (.ok docs, _) =>
    let prompt := demoPrompt demo ++ "Context:\n" ++ docsBlock docs
      ++ "Answer in t he same format as before.\n" ++ caseStr ++ " " ++ st.1
    if cfg.method = "fix-length-retrieval" then
      match generate env prompt cfg.fix_length false with
      | .error e => .error e
      | .ok tup =>
        match pyUnpack3 tup with
        | .error e => .error e
        | .ok _ => .error (.typeError ("unreachable"))
    else
      match generate env prompt cfg.generate_max_length false with
      | .error e => .error e
      | .ok tup =>
        match pyUnpack3 tup with
        | .error e => .error e
        | .ok _ => .error (.typeError ("unreachable"))

/-- One iteration of AttnWeightRAG.inference (lines 758 to 877): prompt
assembly, generation with attention, the attention weighted detector, and
on a flag the query reformulation, retrieval and regeneration. -/
def attnBody (env : Env) (cfg : Cfg)
    (rs : List (String × String × Retriever)) (multi : Bool)
    (question caseStr : String) (demo : List String) (_i : Nat)
    (text : String) : Except PyErr (LoopStep String) :=
  let tmpLi := [caseStr, "User Query: " ++ question,
    "Answer generated so far: " ++ text]
  let prompt := demoPrompt demo
    ++ joinSep "\n" (tmpLi.filter (fun s => decide (0 < s.length)))
    ++ "\nRefine the answer here:"
  match generateAttn env prompt cfg.generate_max_length "max"
      (cfg.method = "dragin") (cfg.method = "attn_prob") with
  | .error e => .error e
  | .ok ao =>
    match (if cfg.method = "dragin" then
             match ao.seqentropies with
             | some l => .ok l
             | none => .error (.typeError ("weight is None"))
           else
             match ao.seqlogprobs with
             | some l => .ok (l.map (fun v => -v))
             | none => .error (.typeError ("NoneType is not iterable"))
           : Except PyErr (List ℚ)) with
    | .error e => .error e
    | .ok weight =>
      match attnModifier env cfg ao.text ao.seqlist ao.attns weight with
      | .error e => .error e
      | .ok (hallu, ptext, cts, chs) =>
        if !hallu then .ok (.cont (pyStrip text ++ " " ++ pyStrip ao.text))
        else
          match cts, chs with
          | some currTokens, some currHit =>
            match attnQueryFormulation env cfg question text ptext
                currTokens currHit with
            | .error e => .error e
            | .ok rq =>
              match retrieve env rs multi rq cfg.retrieve_topk 64 0 with
              | (.error e, _) => .error e
              | (.ok docs, _) =>
                let tmpLi2 := [caseStr,
                  "Answer generated so far: " ++ (text ++ " " ++ ptext)]
                let prompt2 := demoPrompt demo ++ "Context:\n"
                  ++ docsBlock docs
                  ++ "Answer the user query below ONLY using the context above.\n"
                  ++ "User Query: " ++ question ++ "\n"
                  ++ joinSep "\n" (tmpLi2.filter (fun s => decide (0 < s.length)))
                  ++ "\nRefine the answer here:"
                match generate env prompt2 cfg.generate_max_length false with
                | .error e => .error e
                | .ok tup =>
                  match pyUnpack4 tup with
                  | .error e => .error e
                  | .ok (v1, _, _, _) =>
                    match asStr v1 with
                    | .error e => .error e
                    | .ok newText2 =>
                      .ok (.cont (joinSep " "
                        ([pyStrip text, pyStrip ptext, pyStrip newText2].filter
                          (fun s => decide (0 < s.length)))))
          | _, _ => .error (.typeError ("modifier result"))

/-- Embeds TokenRAG.inference (lines 477 to 524) as a fuelled loop from the
empty answer. -/
def tokenRAGInference (env : Env) (cfg : Cfg)
    (rs : List (String × String × Retriever)) (multi : Bool)
    (_question caseStr : String) (demo : List String) (fuel : Nat) :
    Option (Except PyErr String) :=
  dragLoop (tokenBody env cfg rs multi (modifierTok env cfg) caseStr demo)
    (fun s => s) env cfg.generate_max_length fuel 0 ""

/-- Embeds EntityRAG.inference (line 605), which is TokenRAG.inference with
the entity modifier dispatched through self. -/
def entityRAGInference (env : Env) (cfg : Cfg)
    (rs : List (String × String × Retriever)) (multi : Bool)
    (_question caseStr : String) (demo : List String) (fuel : Nat) :
    Option (Except PyErr String) :=
  dragLoop (tokenBody env cfg rs multi (modifierEnt env cfg) caseStr demo)
    (fun s => s) env cfg.generate_max_length fuel 0 ""

/-- Embeds AttnWeightRAG.inference (lines 753 to 879). -/
def attnRAGInference (env : Env) (cfg : Cfg)
    (rs : List (String × String × Retriever)) (multi : Bool)
    (question caseStr : String) (demo : List String) (fuel : Nat) :
    Option (Except PyErr String) :=
  dragLoop (attnBody env cfg rs multi question caseStr demo)
    (fun s => s) env cfg.generate_max_length fuel 0 ""

/-- Embeds FixLengthRAG.inference (lines 381 to 423); the retrieve question
starts as the question itself. -/
def fixLengthRAGInference (env : Env) (cfg : Cfg)
    (rs : List (String × String × Retriever)) (multi : Bool)
    (question caseStr : String) (demo : List String) (fuel : Nat) :
    Option (Except PyErr (String × String)) :=
  dragLoop (fixLengthBody env cfg rs multi caseStr demo)
    Prod.fst env cfg.generate_max_length fuel 0 ("", question)

/-- Minimal concrete oracle environment used by the concrete evaluations. -/
def envBase : Env where
  genText := fun _ _ => ""
  genLPText := fun _ _ => ""
  genLPIds := fun _ _ => []
  genLPLps := fun _ _ => []
  encodeLen := fun s => s.length
  encodeIds := fun _ => []
  convertIdsToTokens := fun l => l.map (fun _ => "")
  tokenize := fun _ => []
  sents := fun _ => []
  ents := fun _ => []
  realWords := fun _ => []
  attnLast := fun _ => []
  bm25 := fun _ _ _ => [[]]
  sgpt := fun _ _ => [[]]
  dbvs := fun _ _ => [[]]
  expf := fun _ => 1
  spaceToken := "G"
  eosToken := "</s>"
  newlineToken := 99

/-- Small concrete configuration used by the concrete evaluations. -/
def cfgBase : Cfg where
  generate_max_length := 5
  hallucination_threshold := 1/2
  sentence_solver := "avg"
  entity_solver := "avg"
  query_formulation := "forward_all"
  method := "attn_prob"
  retrieve_topk := 1
  check_real_words := false
  retrieve_keep_top_k := some 3
  retrieve_keep_ratio := none
  fix_length := 2

/-- Unpacking a 4-tuple into three names always raises. -/
theorem pyUnpack3_four (a b c d : PyVal) :
    pyUnpack3 [a, b, c, d]
      = .error (.valueError ("too many values to unpack")) := rfl

/-- The fuelled loop cannot run out of fuel once the answer is long enough
that the token budget stop must fire: every surviving iteration strictly
grows the answer text, and a text longer than L tokenizes past the budget. -/
theorem dragLoop_ne_none {σ : Type}
    (body : Nat → σ → Except PyErr (LoopStep σ)) (textOf : σ → String)
    (env : Env) (gml L : Nat)
    (H : ∀ s : String, L < s.length → gml < env.encodeLen s) :
    ∀ fuel i st, 1 ≤ fuel → L + 1 ≤ (textOf st).length + fuel →
      dragLoop body textOf env gml fuel i st ≠ none := by
  intro fuel
  induction fuel with
  | zero => intro i st h1 _; exact absurd h1 (by omega)
  | succ n ih =>
    intro i st _ hinv
    simp only [dragLoop]
    cases hb : body i st with
    | error e => simp
    | ok step =>
      cases step with
      | brk st2 => simp
      | cont st2 =>
        by_cases hstop : stopCheck env gml (textOf st).length (textOf st2) = true
        · simp [hstop]
        · have hfalse : stopCheck env gml (textOf st).length (textOf st2)
              = false := by
            cases hsc : stopCheck env gml (textOf st).length (textOf st2) with
            | true => exact absurd hsc hstop
            | false => rfl
          have hparts : ¬ gml < env.encodeLen (textOf st2)
              ∧ ¬ (textOf st2).length ≤ (textOf st).length := by
            have h2 := hfalse
            simp only [stopCheck, Bool.or_eq_false_iff,
              decide_eq_false_iff_not] at h2
            exact ⟨h2.1.1, h2.1.2⟩
          have hlen2 : (textOf st2).length ≤ L := by
            by_contra hc
            push_neg at hc
            exact hparts.1 (H _ hc)
          have hgrow : (textOf st).length < (textOf st2).length := by
            omega
          simp only [hfalse, Bool.false_eq_true, if_false]
          cases n with
          | zero => exact absurd hgrow (by omega)
          | succ m => exact ih (i + 1) st2 (by omega) (by omega)

/-- C1: for every oracle environment and configuration, the inference loop
of each RAG variant controller (TokenRAG, EntityRAG, AttnWeightRAG,
FixLengthRAG) terminates within a bounded number of iterations, because the
stop condition checked after each full iteration exits on the OR of: the
accumulated answer token count exceeding generate_max_length, the answer
text not growing this iteration, or the answer containing the sentinel
phrase the answer is.  L witnesses the tokenizer property that any text of
more than L characters tokenizes past the budget, and L + 1 iterations of
fuel then always suffice (an uncaught body exception also ends the loop). -/
theorem c1_loops_terminate (env : Env) (cfg : Cfg)
    (rs : List (String × String × Retriever)) (multi : Bool)
    (question caseStr : String) (demo : List String) (L fuel : Nat)
    (H : ∀ s : String, L < s.length → cfg.generate_max_length < env.encodeLen s)
    (hfuel : L + 1 ≤ fuel) :
    tokenRAGInference env cfg rs multi question caseStr demo fuel ≠ none
    ∧ entityRAGInference env cfg rs multi question caseStr demo fuel ≠ none
    ∧ attnRAGInference env cfg rs multi question caseStr demo fuel ≠ none
    ∧ fixLengthRAGInference env cfg rs multi question caseStr demo fuel ≠ none := by
  refine ⟨?_, ?_, ?_, ?_⟩
  · exact dragLoop_ne_none _ _ env cfg.generate_max_length L H fuel 0 ""
      (by omega) (by simp; omega)
  · exact dragLoop_ne_none _ _ env cfg.generate_max_length L H fuel 0 ""
      (by omega) (by simp; omega)
  · exact dragLoop_ne_none _ _ env cfg.generate_max_length L H fuel 0 ""
      (by omega) (by simp; omega)
  · exact dragLoop_ne_none _ _ env cfg.generate_max_length L H fuel 0
      ("", question) (by omega) (by simp; omega)

/-- Concrete instantiation of the loop termination bound: with the
character-count tokenizer of envBase, bound L = 5 and fuel 6, none of the
four loops runs out of fuel. -/
theorem c1_witness :
    tokenRAGInference envBase cfgBase [] false "" "" [] 6 ≠ none
    ∧ entityRAGInference envBase cfgBase [] false "" "" [] 6 ≠ none
    ∧ attnRAGInference envBase cfgBase [] false "" "" [] 6 ≠ none
    ∧ fixLengthRAGInference envBase cfgBase [] false "" "" [] 6 ≠ none :=
  c1_loops_terminate envBase cfgBase [] false "" "" [] 5 6
    (fun _ h => h) (by omega)

/-- C5: every invocation of TokenRAG.inference, and of EntityRAG.inference
which delegates to it, raises the tuple unpacking ValueError during its
first loop iteration: BasicGenerator.generate with return_logprobs returns
the 4-tuple (text, generated_ids, logprobs, outputs), and the call site at
line 484 unpacks it into exactly three names.  The second hypothesis is the
length assertion inside generate itself (line 69). -/
theorem c5_unpack_error (env : Env) (cfg : Cfg)
    (rs : List (String × String × Retriever)) (multi : Bool)
    (question caseStr : String) (demo : List String) (fuel : Nat)
    (hfuel : 1 ≤ fuel)
    (hlen : ∀ p m, (env.genLPIds p m).length = (env.genLPLps p m).length) :
    tokenRAGInference env cfg rs multi question caseStr demo fuel
      = some (.error (.valueError ("too many values to unpack")))
    ∧ entityRAGInference env cfg rs multi question caseStr demo fuel
      = some (.error (.valueError ("too many values to unpack"))) := by
  obtain ⟨n, rfl⟩ : ∃ n, fuel = n + 1 := ⟨fuel - 1, by omega⟩
  constructor
  · simp only [tokenRAGInference, dragLoop, tokenBody, generate, hlen,
      if_true, if_pos, pyUnpack3_four]
  · simp only [entityRAGInference, dragLoop, tokenBody, generate, hlen,
      if_true, if_pos, pyUnpack3_four]

/-- Concrete instantiation of the unpacking failure at the base oracle. -/
theorem c5_witness :
    tokenRAGInference envBase cfgBase [] false "" "" [] 1
      = some (.error (.valueError ("too many values to unpack")))
    ∧ entityRAGInference envBase cfgBase [] false "" "" [] 1
      = some (.error (.valueError ("too many values to unpack"))) :=
  c5_unpack_error envBase cfgBase [] false "" "" [] 1 (by omega)
    (fun _ _ => rfl)

/-- C6: generate_attn called with use_entropy never succeeds: whatever the
oracles return, the call either fails earlier or reaches the entropy block,
whose iteration over the undefined name scores raises NameError; whenever
everything before the entropy block succeeds, the error is exactly that
NameError. -/
theorem c6_entropy_fails (env : Env) (inputText : String) (maxLength : Nat)
    (solver : String) (useLogprob : Bool) :
    isOkE (generateAttn env inputText maxLength solver true useLogprob) = false
    ∧ (isOkE (generateAttnPre env inputText maxLength solver useLogprob) = true →
        generateAttn env inputText maxLength solver true useLogprob
          = .error (.nameError ("scores"))) := by
  constructor
  · unfold generateAttn
    cases h : generateAttnPre env inputText maxLength solver useLogprob with
    | error e => simp [isOkE]
    | ok pre => simp [isOkE]
  · intro hok
    unfold generateAttn
    cases h : generateAttnPre env inputText maxLength solver useLogprob with
    | error e => rw [h] at hok; simp [isOkE] at hok
    | ok pre => simp

/-- Environment whose oracles let generate_attn reach the entropy block. -/
def envC6 : Env :=
  { envBase with
    genLPIds := fun _ _ => [0]
    genLPLps := fun _ _ => [0]
    convertIdsToTokens := fun l => l.map (fun _ => "a")
    attnLast := fun _ => [[[1]]] }

/-- Concrete instantiation: the pre-entropy stage succeeds on envC6 and the
dragin style call still fails with the NameError. -/
theorem c6_witness :
    isOkE (generateAttn envC6 "" 5 "max" true false) = false
    ∧ generateAttn envC6 "" 5 "max" true false
      = .error (.nameError ("scores")) :=
  ⟨(c6_entropy_fails envC6 "" 5 "max" false).1,
   (c6_entropy_fails envC6 "" 5 "max" false).2 (by decide)⟩

/-- C8: an unrecognized retriever kind does NOT fail at construction time:
_retriever_selector returns the NotImplementedError object (line 281 has
return, not raise), BasicRAG.__init__ stores it as the retriever, and the
configuration error only surfaces at the first retrieval, where _retrieve
dispatches on the stored object class name NotImplementedError and raises
NotImplementedError then. -/
theorem c8_unknown_retriever_deferred :
    initRetrievers [("idx", "FooBar", "desc")]
      = [("idx", "desc", Retriever.errObject ("Retriever not supported"))]
    ∧ (retrieveInner envBase "q"
        (Retriever.errObject ("Retriever not supported")) 1 64 0).1
      = .error (.notImplementedError ("NotImplementedError not supported..."))
    ∧ (retrieve envBase (initRetrievers [("idx", "FooBar", "desc")])
        false "q" 1 64 0).1
      = .error (.notImplementedError ("NotImplementedError not supported...")) :=
  ⟨rfl, rfl, rfl⟩

/-- getD of an elementwise sum at an in-range position. -/
theorem vecAdd_getD : ∀ (a b : List ℚ) (k : Nat), k < a.length → k < b.length →
    (vecAdd a b).getD k 0 = a.getD k 0 + b.getD k 0 := by
  intro a
  induction a with
  | nil => intro b k h _; exact absurd h (by simp)
  | cons x xs ih =>
    intro b k h1 h2
    cases b with
    | nil => exact absurd h2 (by simp)
    | cons y ys =>
      cases k with
      | zero => simp [vecAdd]
      | succ n =>
        simp only [vecAdd, List.zipWith_cons_cons, List.getD_cons_succ]
        exact ih ys n (by simpa using h1) (by simpa using h2)

/-- The column sums of a rectangular stack keep the common row length. -/
theorem matColSum_length : ∀ (m : List (List ℚ)) (K : Nat),
    (∀ r ∈ m, r.length = K) → m ≠ [] → (matColSum m).length = K := by
  intro m
  induction m with
  | nil => intro K _ h; exact absurd rfl h
  | cons r rest ih =>
    intro K hK _
    cases rest with
    | nil => simpa [matColSum] using hK r (by simp)
    | cons s t =>
      have h1 : r.length = K := hK r (by simp)
      have h2 : (matColSum (s :: t)).length = K :=
        ih K (fun x hx => hK x (by simp [hx])) (by simp)
      simp [matColSum, vecAdd, h1, h2]

/-- The column sum of a rectangular stack at an in-range position is the sum
of the per row entries at that position. -/
theorem matColSum_getD : ∀ (m : List (List ℚ)) (K k : Nat),
    (∀ r ∈ m, r.length = K) → k < K →
    (matColSum m).getD k 0 = (m.map (fun r => r.getD k 0)).sum := by
  intro m
  induction m with
  | nil => intro K k _ _; simp [matColSum]
  | cons r rest ih =>
    intro K k hK hk
    cases rest with
    | nil => simp [matColSum]
    | cons s t =>
      have h1 : r.length = K := hK r (by simp)
      have h2 : (matColSum (s :: t)).length = K :=
        matColSum_length (s :: t) K (fun x hx => hK x (by simp [hx]))
          (by simp)
      have hva := vecAdd_getD r (matColSum (s :: t)) k (by omega) (by omega)
      have hih := ih K k (fun x hx => hK x (by simp [hx])) hk
      simp only [matColSum, hva, hih, List.map_cons, List.sum_cons]

/-- The positional decay keeps the vector length. -/
theorem posDecayGo_length : ∀ (v : List ℚ) (n i : Nat),
    (posDecayGo n i v).length = v.length := by
  intro v
  induction v with
  | nil => intro n i; rfl
  | cons x rest ih => intro n i; simp [posDecayGo, ih]

/-- The positional decay at an in-range position divides by n - (i + k). -/
theorem posDecayGo_getD : ∀ (v : List ℚ) (n i k : Nat), k < v.length →
    (posDecayGo n i v).getD k 0 = v.getD k 0 / ((n - (i + k) : ℕ) : ℚ) := by
  intro v
  induction v with
  | nil => intro n i k h; exact absurd h (by simp)
  | cons x rest ih =>
    intro n i k h
    cases k with
    | zero => simp [posDecayGo]
    | succ m =>
      simp only [posDecayGo, List.getD_cons_succ]
      rw [ih n (i + 1) m (by simpa using h)]
      congr 2
      omega

/-- getD commutes with a pointwise division. -/
theorem getD_map_div (l : List ℚ) (c : ℚ) (k : Nat) :
    (l.map (fun v => v / c)).getD k 0 = l.getD k 0 / c := by
  induction l generalizing k with
  | nil => simp
  | cons x xs ih =>
    cases k with
    | zero => simp
    | succ m =>
      simp only [List.map_cons, List.getD_cons_succ]
      exact ih m

/-- C2 corrected: in the avg attention reduction the per token scalar at key
position k is the mean over heads of the attention mass that position
receives summed over the query rows of the last layer, then divided by the
number of remaining positions.  The sum runs over query positions (tensor
dim 1) and the mean over heads (dim 0) of the single last layer, not a sum
over heads followed by a mean over layers as the claim words it. -/
theorem c2_avg_closed_form (atten : List (List (List ℚ))) (Q K : Nat)
    (hne : atten ≠ [])
    (hsh : ∀ m ∈ atten, m.length = Q ∧ ∀ r ∈ m, r.length = K) (hQ : 0 < Q) :
    (avgSolverCode atten).length = K ∧
    ∀ k, k < K → (avgSolverCode atten).getD k 0
      = ((atten.map (fun hd => (hd.map (fun r => r.getD k 0)).sum)).sum
          / (atten.length : ℚ)) / ((K - k : ℕ) : ℚ) := by
  have hrows : ∀ x ∈ atten.map matColSum, x.length = K := by
    intro x hx
    obtain ⟨hd, hhd, rfl⟩ := List.mem_map.1 hx
    refine matColSum_length hd K (hsh hd hhd).2 ?_
    intro hnil
    have hq := (hsh hd hhd).1
    rw [hnil] at hq
    simp at hq
    omega
  have hmapne : atten.map matColSum ≠ [] := by
    simpa using hne
  have hml : (matColSum (atten.map matColSum)).length = K :=
    matColSum_length _ K hrows hmapne
  have hm_len : (meanDim0 (atten.map matColSum)).length = K := by
    simp [meanDim0, hml]
  refine ⟨by simp [avgSolverCode, posDecay, posDecayGo_length, hm_len], ?_⟩
  intro k hk
  have hk2 : k < (meanDim0 (atten.map matColSum)).length := by omega
  rw [avgSolverCode, posDecay, posDecayGo_getD _ _ 0 k hk2]
  have hmean : (meanDim0 (atten.map matColSum)).getD k 0
      = (matColSum (atten.map matColSum)).getD k 0 / (atten.length : ℚ) := by
    rw [meanDim0, getD_map_div]
    simp
  rw [hmean]
  have hcs : (matColSum (atten.map matColSum)).getD k 0
      = (atten.map (fun hd => (hd.map (fun r => r.getD k 0)).sum)).sum := by
    rw [matColSum_getD _ K k hrows hk]
    rw [List.map_map]
    congr 1
    refine List.map_congr_left ?_
    intro hd hhd
    exact matColSum_getD hd K k (hsh hd hhd).2 hk
  rw [hcs, hm_len]
  norm_num

/-- C2 counterexample: one last layer with two heads over a single position;
the code (sum over query rows, mean over the two heads) yields 3 while the
spec reading (sum over heads, mean over the single layer) yields 6. -/
theorem c2_counterexample :
    avgSolverCode [[[2]], [[4]]] ≠ avgSolverSpecClaim [[[[2]], [[4]]]] := by
  have h1 : avgSolverCode [[[2]], [[4]]] = [3] := by
    norm_num [avgSolverCode, meanDim0, matColSum, vecAdd, posDecay, posDecayGo]
  have h2 : avgSolverSpecClaim [[[[2]], [[4]]]] = [6] := by
    norm_num [avgSolverSpecClaim, meanDim0, matColSum, vecAdd, posDecay,
      posDecayGo]
  rw [h1, h2]
  simp

/-- Concrete instantiation of the avg closed form on the two head tensor. -/
theorem c2_witness :
    (avgSolverCode [[[2]], [[4]]]).length = 1
    ∧ (avgSolverCode [[[2]], [[4]]]).getD 0 0
      = ((([[[2]], [[4]]] : List (List (List ℚ))).map
          (fun hd => (hd.map (fun r => r.getD 0 0)).sum)).sum
          / ((2 : ℕ) : ℚ)) / ((1 - 0 : ℕ) : ℚ) := by
  have h := c2_avg_closed_form [[[2]], [[4]]] 1 1 (by decide)
    (by intro m hm; fin_cases hm <;> simp) (by omega)
  exact ⟨h.1, by simpa using h.2 0 (by omega)⟩

/-- Environment whose index selection oracle answers with one bullet line
naming an unconfigured index. -/
def envC9 : Env := { envBase with genText := fun _ _ => "- b" }

/-- C9 counterexample: with one configured index a and a selector output
naming b, the multi index retrieve raises KeyError (the dict lookup at line
237), which is not a NotImplementedError-class error as the claim states. -/
theorem c9_counterexample :
    (retrieve envC9 [("a", "da", Retriever.bm25)] true "q" 1 64 0).1
      = .error (.keyError ("b"))
    ∧ ∀ m : String, PyErr.keyError "b" ≠ PyErr.notImplementedError m := by
  constructor
  · rfl
  · intro m h
    exact PyErr.noConfusion h

/-- In multi index mode, retrieve reduces to the fan-out loop over the
parsed selector output with the counter already incremented once. -/
theorem retrieve_multi_eq (env : Env)
    (rs : List (String × String × Retriever)) (query : String)
    (topk mql c : Nat) :
    retrieve env rs true query topk mql c
      = multiLoop env rs query topk mql
          (pySplit (pyStrip (env.genText (buildIndexPrompt query rs) 64))
            ("\n")) [] (c + 1) := rfl

/-- The fan-out loop raises KeyError for the first parsed name missing from
the retrievers dict, after any prefix of lines whose lookups and inner
retrievals succeed. -/
theorem multiLoop_keyerror (env : Env)
    (rs : List (String × String × Retriever)) (query : String)
    (topk mql : Nat) (line : String) (post : List String)
    (hline : lookupRetriever rs (parseIndexName line) = none) :
    ∀ pre docs c,
      (∀ l ∈ pre, ∃ p, lookupRetriever rs (parseIndexName l) = some p
        ∧ isOkE (retrieveInnerRes env query p.2.2 topk mql) = true) →
      (multiLoop env rs query topk mql (pre ++ line :: post) docs c).1
        = .error (.keyError (parseIndexName line)) := by
  intro pre
  induction pre with
  | nil =>
    intro docs c _
    simp only [List.nil_append, multiLoop, hline]
  | cons l0 rest ih =>
    intro docs c hpre
    obtain ⟨p, hp, hok⟩ := hpre l0 (by simp)
    simp only [List.cons_append, multiLoop, hp]
    cases hres : retrieveInnerRes env query p.2.2 topk mql with
    | error e => rw [hres] at hok; simp [isOkE] at hok
    | ok d =>
      simp only [retrieveInner, hres]
      exact ih (docs ++ d) (c + 1) (fun l hl => hpre l (by simp [hl]))

/-- C9 amended: in multi index mode, an index selection line whose parsed
name is not a configured index makes BasicRAG.retrieve raise a KeyError
(not a NotImplementedError) that propagates uncaught and unretried; shown
for the first offending line after any prefix of successful lines. -/
theorem c9_unknown_index_keyerror (env : Env)
    (rs : List (String × String × Retriever)) (query : String)
    (topk mql c : Nat) (pre : List String) (line : String)
    (post : List String)
    (hout : pySplit (pyStrip (env.genText (buildIndexPrompt query rs) 64)) ("\n")
      = pre ++ line :: post)
    (hline : lookupRetriever rs (parseIndexName line) = none)
    (hpre : ∀ l ∈ pre, ∃ p, lookupRetriever rs (parseIndexName l) = some p
      ∧ isOkE (retrieveInnerRes env query p.2.2 topk mql) = true) :
    (retrieve env rs true query topk mql c).1
      = .error (.keyError (parseIndexName line)) := by
  rw [retrieve_multi_eq, hout]
  exact multiLoop_keyerror env rs query topk mql line post hline pre [] (c + 1)
    hpre

/-- Concrete instantiation of the KeyError path on envC9. -/
theorem c9_witness :
    (retrieve envC9 [("a", "da", Retriever.bm25)] true "q" 1 64 5).1
      = .error (.keyError (parseIndexName "- b")) :=
  c9_unknown_index_keyerror envC9 [("a", "da", Retriever.bm25)] "q" 1 64 5
    [] "- b" [] rfl rfl (by intro l hl; exact absurd hl (List.not_mem_nil l))

/-- Success of the fan-out loop adds exactly one counter increment per
selected line. -/
theorem multiLoop_counter (env : Env)
    (rs : List (String × String × Retriever)) (query : String)
    (topk mql : Nat) :
    ∀ lines docs c,
      isOkE (multiLoop env rs query topk mql lines docs c).1 = true →
      (multiLoop env rs query topk mql lines docs c).2 = c + lines.length := by
  intro lines
  induction lines with
  | nil => intro docs c _; rfl
  | cons l0 rest ih =>
    intro docs c hok
    cases hp : lookupRetriever rs (parseIndexName l0) with
    | none => rw [multiLoop, hp] at hok ⊢; simp [isOkE] at hok
    | some p =>
      cases hres : retrieveInnerRes env query p.2.2 topk mql with
      | error e =>
        rw [multiLoop, hp] at hok ⊢
        simp only [retrieveInner, hres] at hok
        simp [isOkE] at hok
      | ok d =>
        rw [multiLoop, hp] at hok ⊢
        simp only [retrieveInner, hres] at hok ⊢
        rw [ih (docs ++ d) (c + 1) hok]
        simp only [List.length_cons]
        omega

/-- C10: a single index BasicRAG.retrieve call increments counter.retrieve
by exactly two (line 216 in retrieve and line 242 in _retrieve, the latter
before the dispatch can raise); a completed multi index call increments it
by one plus the number of selected index lines, so the counter does not
count retrieval events one to one. -/
theorem c10_counter_increments (env : Env)
    (rs : List (String × String × Retriever)) (query : String)
    (topk mql c : Nat) :
    (rs ≠ [] → (retrieve env rs false query topk mql c).2 = c + 2)
    ∧ (isOkE (retrieve env rs true query topk mql c).1 = true →
        (retrieve env rs true query topk mql c).2
          = c + 1 + (pySplit (pyStrip (env.genText (buildIndexPrompt query rs)
              64)) ("\n")).length) := by
  constructor
  · intro hne
    cases rs with
    | nil => exact absurd rfl hne
    | cons r0 rest => rfl
  · intro hok
    rw [retrieve_multi_eq] at hok ⊢
    rw [multiLoop_counter env rs query topk mql _ [] (c + 1) hok]

/-- Environment whose selector output names the configured index a and whose
BM25 oracle returns one passage row. -/
def envC10 : Env :=
  { envBase with
    genText := fun _ _ => "- a"
    bm25 := fun _ _ _ => [["d"]] }

/-- Concrete instantiation of both counter increment counts. -/
theorem c10_witness :
    (retrieve envC10 [("a", "da", Retriever.bm25)] false "q" 1 64 0).2 = 0 + 2
    ∧ (retrieve envC10 [("a", "da", Retriever.bm25)] true "q" 1 64 0).2
      = 0 + 1 + (pySplit (pyStrip (envC10.genText
          (buildIndexPrompt "q" [("a", "da", Retriever.bm25)]) 64)) ("\n")).length :=
  ⟨(c10_counter_increments envC10 [("a", "da", Retriever.bm25)] "q" 1 64 0).1
      (by simp),
   (c10_counter_increments envC10 [("a", "da", Retriever.bm25)] "q" 1 64 0).2
      rfl⟩

/-- The head-seeded maximum of a nonempty list is a member. -/
theorem listMax_mem : ∀ (l : List ℚ), l ≠ [] → listMax l ∈ l := by
  intro l
  induction l with
  | nil => intro h; exact absurd rfl h
  | cons x rest ih =>
    intro _
    cases rest with
    | nil => simp [listMax]
    | cons y t =>
      show max x (listMax (y :: t)) ∈ x :: y :: t
      rcases max_choice x (listMax (y :: t)) with h | h
      · rw [h]; simp
      · rw [h]; exact List.mem_cons_of_mem x (ih (by simp))

/-- The head-seeded minimum of a nonempty list is a member. -/
theorem listMin_mem : ∀ (l : List ℚ), l ≠ [] → listMin l ∈ l := by
  intro l
  induction l with
  | nil => intro h; exact absurd rfl h
  | cons x rest ih =>
    intro _
    cases rest with
    | nil => simp [listMin]
    | cons y t =>
      show min x (listMin (y :: t)) ∈ x :: y :: t
      rcases min_choice x (listMin (y :: t)) with h | h
      · rw [h]; simp
      · rw [h]; exact List.mem_cons_of_mem x (ih (by simp))

/-- A strict upper bound on every member bounds the sum by count times t. -/
theorem sum_lt_mul : ∀ (l : List ℚ) (t : ℚ), l ≠ [] → (∀ x ∈ l, x < t) →
    l.sum < t * (l.length : ℚ) := by
  intro l t
  induction l with
  | nil => intro h _; exact absurd rfl h
  | cons x rest ih =>
    intro _ hb
    cases rest with
    | nil => simpa using hb x (by simp)
    | cons y rtl =>
      have h1 := ih (by simp) (fun z hz => hb z (by simp [hz]))
      have h2 := hb x (by simp)
      simp only [List.sum_cons, List.length_cons] at h1 ⊢
      push_cast at h1 ⊢
      nlinarith [h1, h2]

/-- A nonempty list of values all below t has mean below t. -/
theorem mean_lt (l : List ℚ) (t : ℚ) (hne : l ≠ []) (hb : ∀ x ∈ l, x < t) :
    l.sum / (l.length : ℚ) < t := by
  have hlen : (0 : ℚ) < (l.length : ℚ) := by
    have h0 : l.length ≠ 0 := by simpa [List.length_eq_zero] using hne
    exact_mod_cast Nat.pos_of_ne_zero h0
  rw [div_lt_iff₀ hlen]
  exact lt_of_lt_of_le (sum_lt_mul l t hne hb) (by rw [mul_comm])

/-- A NaN-free nonempty list keeps a nonempty reduceOption. -/
theorem reduceOption_ne_nil (l : List (Option ℚ)) (hne : l.isEmpty = false)
    (hnone : l.contains none = false) : l.reduceOption ≠ [] := by
  cases l with
  | nil => simp at hne
  | cons po rest =>
    cases po with
    | none => simp [List.contains_cons] at hnone
    | some v => simp [List.reduceOption_cons_of_some]

/-- A NaN-free list has as many reduced values as entries. -/
theorem reduceOption_length_of_no_none : ∀ (l : List (Option ℚ)),
    l.contains none = false → l.reduceOption.length = l.length := by
  intro l
  induction l with
  | nil => intro _; rfl
  | cons po rest ih =>
    intro h
    cases po with
    | none => simp [List.contains_cons] at h
    | some v =>
      rw [List.reduceOption_cons_of_some]
      have h2 : rest.contains none = false := by
        cases hc : rest.contains none with
        | false => rfl
        | true => rw [List.contains_cons, hc] at h; simp at h
      simp [ih h2]

/-- With a nonnegative threshold, a sentence reduction over uncertainties
each strictly below the threshold never exceeds it, whatever the policy:
avg, max and min stay below, NaN compares false, and an unknown name gives
the constant 0. -/
theorem sentenceReduce_no_flag (solver : String) (probs : List (Option ℚ))
    (t : ℚ) (ht : 0 ≤ t) (hb : ∀ q : ℚ, some q ∈ probs → q < t) :
    ∀ p, sentenceReduce solver probs = .ok p → optGt p t = false := by
  have hred : ∀ q ∈ probs.reduceOption, q < t := by
    intro q hq
    exact hb q (List.reduceOption_mem_iff.1 hq)
  intro p hp
  unfold sentenceReduce at hp
  split_ifs at hp with h1 h2 h3
  · -- avg
    rw [Except.ok.injEq] at hp
    subst hp
    unfold npMean
    split_ifs with h4
    · rfl
    · push_neg at h4
      have hcont : probs.contains none = false := by
        cases hc : probs.contains none with
        | false => rfl
        | true => exact absurd hc (by simpa using h4.1)
      have hemp : probs.isEmpty = false := by
        cases hc : probs.isEmpty with
        | false => rfl
        | true => exact absurd hc (by simpa using h4.2)
      have hnenil : probs.reduceOption ≠ [] :=
        reduceOption_ne_nil probs hemp hcont
      have hlt : probs.reduceOption.sum / (probs.length : ℚ) < t := by
        rw [← reduceOption_length_of_no_none probs hcont]
        exact mean_lt _ t hnenil hred
      exact decide_eq_false (not_lt.mpr (le_of_lt hlt))
  · -- max
    unfold npMax at hp
    split_ifs at hp with h4 h5
    · rw [Except.ok.injEq] at hp; subst hp; rfl
    · rw [Except.ok.injEq] at hp
      subst hp
      have hemp : probs.isEmpty = false := by simpa using h4
      have hcont : probs.contains none = false := by simpa using h5
      have hm := listMax_mem probs.reduceOption
        (reduceOption_ne_nil probs hemp hcont)
      exact decide_eq_false (not_lt.mpr (le_of_lt (hred _ hm)))
  · -- min
    unfold npMin at hp
    split_ifs at hp with h4 h5
    · rw [Except.ok.injEq] at hp; subst hp; rfl
    · rw [Except.ok.injEq] at hp
      subst hp
      have hemp : probs.isEmpty = false := by simpa using h4
      have hcont : probs.contains none = false := by simpa using h5
      have hm := listMin_mem probs.reduceOption
        (reduceOption_ne_nil probs hemp hcont)
      exact decide_eq_false (not_lt.mpr (le_of_lt (hred _ hm)))
  · -- unknown policy
    rw [Except.ok.injEq] at hp
    subst hp
    exact decide_eq_false (not_lt.mpr ht)

/-- An unknown policy name reduces to the constant 0 without raising. -/
theorem sentenceReduce_unknown (solver : String)
    (h1 : solver ≠ "avg") (h2 : solver ≠ "max") (h3 : solver ≠ "min") :
    ∀ probs, sentenceReduce solver probs = .ok (some 0) := by
  intro probs
  simp [sentenceReduce, h1, h2, h3]

/-- The constant 0 never exceeds a nonnegative threshold. -/
theorem optGt_some_zero (t : ℚ) (ht : 0 ≤ t) : optGt (some 0) t = false :=
  decide_eq_false (not_lt.mpr ht)

/-- A reduction over a list of zero uncertainties never exceeds a
nonnegative threshold. -/
theorem sentenceReduce_zeros (solver : String) (probs : List (Option ℚ))
    (t : ℚ) (ht : 0 ≤ t) (hz : ∀ x ∈ probs, x = some 0) :
    ∀ p, sentenceReduce solver probs = .ok p → optGt p t = false := by
  have hred : ∀ q ∈ probs.reduceOption, q = 0 := by
    intro q hq
    exact Option.some.inj (hz _ (List.reduceOption_mem_iff.1 hq))
  intro p hp
  unfold sentenceReduce at hp
  split_ifs at hp with h1 h2 h3
  · rw [Except.ok.injEq] at hp
    subst hp
    unfold npMean
    split_ifs with h4
    · rfl
    · have hsum : probs.reduceOption.sum = 0 := List.sum_eq_zero hred
      rw [hsum, zero_div]
      exact optGt_some_zero t ht
  · unfold npMax at hp
    split_ifs at hp with h4 h5
    · rw [Except.ok.injEq] at hp; subst hp; rfl
    · rw [Except.ok.injEq] at hp
      subst hp
      have hemp : probs.isEmpty = false := by simpa using h4
      have hcont : probs.contains none = false := by simpa using h5
      rw [hred _ (listMax_mem probs.reduceOption
        (reduceOption_ne_nil probs hemp hcont))]
      exact optGt_some_zero t ht
  · unfold npMin at hp
    split_ifs at hp with h4 h5
    · rw [Except.ok.injEq] at hp; subst hp; rfl
    · rw [Except.ok.injEq] at hp
      subst hp
      have hemp : probs.isEmpty = false := by simpa using h4
      have hcont : probs.contains none = false := by simpa using h5
      rw [hred _ (listMin_mem probs.reduceOption
        (reduceOption_ne_nil probs hemp hcont))]
      exact optGt_some_zero t ht
  · rw [Except.ok.injEq] at hp
    subst hp
    exact optGt_some_zero t ht

/-- Every element of a Python slice is an element of the list. -/
theorem pySlice_subset {α : Type} (l : List α) (a b : Int) :
    ∀ x ∈ pySlice l a b, x ∈ l := by
  intro x hx
  unfold pySlice at hx
  exact List.mem_of_mem_take (List.mem_of_mem_drop hx)

/-- Token detector sentence loop: if the sentence reduction of uncertainty
lists drawn from the log probabilities never exceeds the threshold, a run
that does not raise falls through to the no-hallucination result. -/
theorem modTokGo_no_flag (env : Env) (cfg : Cfg) (text : String)
    (tokens : List String) (logprobs : List ℚ)
    (hng : ∀ (probs : List ℚ) (p : Option ℚ),
      (∀ x ∈ probs, ∃ v ∈ logprobs, x = 1 - env.expf v) →
      sentenceReduce cfg.sentence_solver (probs.map some) = .ok p →
      optGt p cfg.hallucination_threshold = false) :
    ∀ sentences done tid,
      isOkE (modTokGo env cfg text tokens logprobs done sentences tid) = true →
      modTokGo env cfg text tokens logprobs done sentences tid
        = .ok (text, none, false) := by
  intro sentences
  induction sentences with
  | nil => intro done tid _; rfl
  | cons sent rest ih =>
    intro done tid hok
    cases hred : sentenceReduce cfg.sentence_solver
        (((pySlice logprobs (tid : Int)
            (((matchSentAux tokens sent tid 0 : ℕ) : Int) + 1)).map
          (fun v => 1 - env.expf v)).map some) with
    | error e =>
      rw [show modTokGo env cfg text tokens logprobs done (sent :: rest) tid
          = .error e from by simp only [modTokGo, hred]] at hok
      simp [isOkE] at hok
    | ok p =>
      have hngp : optGt p cfg.hallucination_threshold = false := by
        refine hng _ p ?_ hred
        intro x hx
        rcases List.mem_map.1 hx with ⟨v, hv, rfl⟩
        exact ⟨v, pySlice_subset _ _ _ v hv, rfl⟩
      have hstep : modTokGo env cfg text tokens logprobs done
          (sent :: rest) tid
          = modTokGo env cfg text tokens logprobs (done ++ [sent]) rest
              (matchSentAux tokens sent tid 0 + 1) := by
        simp only [modTokGo, hred, hngp, Bool.false_eq_true, if_false]
      rw [hstep] at hok ⊢
      exact ih (done ++ [sent]) (matchSentAux tokens sent tid 0 + 1) hok

/-- Token detector sentence loop with an unrecognized policy: the constant
0 reducer never flags and never raises, for any input at all. -/
theorem modTokGo_unknown (env : Env) (cfg : Cfg) (text : String)
    (tokens : List String) (logprobs : List ℚ)
    (ht : 0 ≤ cfg.hallucination_threshold)
    (h1 : cfg.sentence_solver ≠ "avg") (h2 : cfg.sentence_solver ≠ "max")
    (h3 : cfg.sentence_solver ≠ "min") :
    ∀ sentences done tid,
      modTokGo env cfg text tokens logprobs done sentences tid
        = .ok (text, none, false) := by
  intro sentences
  induction sentences with
  | nil => intro done tid; rfl
  | cons sent rest ih =>
    intro done tid
    rw [show modTokGo env cfg text tokens logprobs done (sent :: rest) tid
        = modTokGo env cfg text tokens logprobs (done ++ [sent]) rest
            (matchSentAux tokens sent tid 0 + 1) from by
      simp only [modTokGo, sentenceReduce_unknown cfg.sentence_solver h1 h2 h3,
        optGt_some_zero cfg.hallucination_threshold ht, Bool.false_eq_true,
        if_false]]
    exact ih (done ++ [sent]) (matchSentAux tokens sent tid 0 + 1)

/-- Entity detector flagging loop: if every computed sentence reduction of
the mapped uncertainties stays at or below the threshold, a run that does
not raise falls through to the no-hallucination result. -/
theorem modEntGo_no_flag (env : Env) (cfg : Cfg) (text : String) :
    ∀ (sentences : List String) (entity : List (List String))
      (eps : List (List (Option ℚ))) (done : List String),
      (∀ l ∈ eps, ∀ p, sentenceReduce cfg.sentence_solver
          (l.map (fun po => po.map (fun v => 1 - env.expf v))) = .ok p →
          optGt p cfg.hallucination_threshold = false) →
      isOkE (modEntGo env cfg text done sentences entity eps) = true →
      modEntGo env cfg text done sentences entity eps
        = .ok (text, none, false) := by
  intro sentences
  induction sentences with
  | nil => intro entity eps done _ _; rfl
  | cons sent rest ih =>
    intro entity eps done hall hok
    cases entity with
    | nil => rfl
    | cons ents0 restE =>
      cases eps with
      | nil => rfl
      | cons eprobs restP =>
        by_cases he : eprobs.isEmpty = true
        · rw [show modEntGo env cfg text done (sent :: rest)
              (ents0 :: restE) (eprobs :: restP)
              = modEntGo env cfg text (done ++ [sent]) rest restE restP from by
            simp only [modEntGo, he, if_true]] at hok ⊢
          exact ih restE restP (done ++ [sent])
            (fun l hl => hall l (by simp [hl])) hok
        · cases hred : sentenceReduce cfg.sentence_solver
              (eprobs.map (fun po => po.map (fun v => 1 - env.expf v))) with
          | error e =>
            rw [show modEntGo env cfg text done (sent :: rest)
                (ents0 :: restE) (eprobs :: restP) = .error e from by
              simp only [modEntGo, he, Bool.false_eq_true, if_false, hred]] at hok
            simp [isOkE] at hok
          | ok p =>
            have hngp : optGt p cfg.hallucination_threshold = false :=
              hall eprobs (by simp) p hred
            rw [show modEntGo env cfg text done (sent :: rest)
                (ents0 :: restE) (eprobs :: restP)
                = modEntGo env cfg text (done ++ [sent]) rest restE restP from by
              simp only [modEntGo, he, Bool.false_eq_true, if_false, hred,
                hngp]] at hok ⊢
            exact ih restE restP (done ++ [sent])
              (fun l hl => hall l (by simp [hl])) hok

/-- The entity reduction with an unrecognized policy name is the constant 0
without raising. -/
theorem entityReduce_unknown (solver : String)
    (h1 : solver ≠ "avg") (h2 : solver ≠ "max") (h3 : solver ≠ "min")
    (h4 : solver ≠ "first") :
    ∀ probs, entityReduce solver probs = .ok (some 0) := by
  intro probs
  simp [entityReduce, h1, h2, h3, h4]

/-- With an unrecognized entity policy the per sentence entity values are
all the constant 0. -/
theorem entProbsGo_zeros (cfg : Cfg) (logprobs : List ℚ)
    (h1 : cfg.entity_solver ≠ "avg") (h2 : cfg.entity_solver ≠ "max")
    (h3 : cfg.entity_solver ≠ "min") (h4 : cfg.entity_solver ≠ "first") :
    ∀ itvs l, entProbsGo cfg logprobs itvs = .ok l → ∀ x ∈ l, x = some 0 := by
  intro itvs
  induction itvs with
  | nil =>
    intro l h x hx
    rw [entProbsGo, Except.ok.injEq] at h
    subst h
    exact absurd hx (List.not_mem_nil x)
  | cons itv rest ih =>
    intro l h x hx
    rw [entProbsGo,
      entityReduce_unknown cfg.entity_solver h1 h2 h3 h4] at h
    cases hrec : entProbsGo cfg logprobs rest with
    | error e => rw [hrec] at h; exact Except.noConfusion h
    | ok r =>
      rw [hrec, Except.ok.injEq] at h
      subst h
      rcases List.mem_cons.1 hx with hx | hx
      · exact hx
      · exact ih r hrec x hx

/-- With an unrecognized entity policy every entity probability row is all
zeros. -/
theorem entityProbsList_zeros (cfg : Cfg) (logprobs : List ℚ)
    (h1 : cfg.entity_solver ≠ "avg") (h2 : cfg.entity_solver ≠ "max")
    (h3 : cfg.entity_solver ≠ "min") (h4 : cfg.entity_solver ≠ "first") :
    ∀ intv eps, entityProbsList cfg logprobs intv = .ok eps →
      ∀ l ∈ eps, ∀ x ∈ l, x = some 0 := by
  intro intv
  induction intv with
  | nil =>
    intro eps h l hl
    rw [entityProbsList, Except.ok.injEq] at h
    subst h
    exact absurd hl (List.not_mem_nil l)
  | cons itvs rest ih =>
    intro eps h l hl
    rw [entityProbsList] at h
    cases hgo : entProbsGo cfg logprobs itvs with
    | error e => rw [hgo] at h; exact Except.noConfusion h
    | ok tmp =>
      rw [hgo] at h
      cases hrec : entityProbsList cfg logprobs rest with
      | error e => rw [hrec] at h; exact Except.noConfusion h
      | ok r =>
        rw [hrec, Except.ok.injEq] at h
        subst h
        rcases List.mem_cons.1 hl with hl | hl
        · subst hl
          exact entProbsGo_zeros cfg logprobs h1 h2 h3 h4 itvs l hgo
        · exact ih r hrec l hl

/-- C3 corrected: with an unrecognized sentence policy the reduced value is
the constant 0, so with a nonnegative threshold neither detector ever flags
a hallucination, and the policy lookup itself never raises.  The token
detector is moreover total; the entity detector can still raise its
token-alignment errors before any policy is consulted (see the
counterexample), so for it the conclusion holds on every run that does not
raise.  The second part covers an unrecognized entity policy: every entity
value becomes 0, so the entity detector never flags either. -/
theorem c3_unknown_solver_soft (env : Env) (cfg : Cfg) (text : String)
    (tokens : List String) (logprobs : List ℚ)
    (ht : 0 ≤ cfg.hallucination_threshold) :
    ((cfg.sentence_solver ≠ "avg" ∧ cfg.sentence_solver ≠ "max"
        ∧ cfg.sentence_solver ≠ "min") →
      modifierTok env cfg text tokens logprobs = .ok (text, none, false)
      ∧ (isOkE (modifierEnt env cfg text tokens logprobs) = true →
          modifierEnt env cfg text tokens logprobs = .ok (text, none, false)))
    ∧ ((cfg.entity_solver ≠ "avg" ∧ cfg.entity_solver ≠ "max"
        ∧ cfg.entity_solver ≠ "min" ∧ cfg.entity_solver ≠ "first") →
        env.expf 0 = 1 →
        isOkE (modifierEnt env cfg text tokens logprobs) = true →
        modifierEnt env cfg text tokens logprobs = .ok (text, none, false)) := by
  constructor
  · rintro ⟨h1, h2, h3⟩
    constructor
    · exact modTokGo_unknown env cfg text tokens logprobs ht h1 h2 h3 _ [] 0
    · intro hok
      unfold modifierEnt at hok ⊢
      cases hep : entityProbsOf env cfg text tokens logprobs with
      | error e => rw [hep] at hok; simp [isOkE] at hok
      | ok eps =>
        rw [hep] at hok
        refine modEntGo_no_flag env cfg text _ _ eps [] ?_ hok
        intro l _ p hp
        rw [sentenceReduce_unknown cfg.sentence_solver h1 h2 h3,
          Except.ok.injEq] at hp
        subst hp
        exact optGt_some_zero cfg.hallucination_threshold ht
  · rintro ⟨h1, h2, h3, h4⟩ hexp hok
    unfold modifierEnt at hok ⊢
    cases hep : entityProbsOf env cfg text tokens logprobs with
    | error e => rw [hep] at hok; simp [isOkE] at hok
    | ok eps =>
      rw [hep] at hok
      have hz : ∀ l ∈ eps, ∀ x ∈ l, x = some 0 := by
        unfold entityProbsOf at hep
        cases hbel : belongingGo text tokens 0 0
            (List.replicate (chars text).length (-1)) with
        | error e =>
          simp only [hbel] at hep
          exact Except.noConfusion hep
        | ok bel =>
          simp only [hbel] at hep
          cases hint : entityIntvBuild text bel
              ((sentencesOf env text).zip
                ((sentencesOf env text).map env.ents)) with
          | error e =>
            simp only [hint] at hep
            exact Except.noConfusion hep
          | ok intv =>
            simp only [hint] at hep
            exact entityProbsList_zeros cfg logprobs h1 h2 h3 h4 intv eps hep
      refine modEntGo_no_flag env cfg text _ _ eps [] ?_ hok
      intro l hl p hp
      have hz2 : ∀ x ∈ l.map (fun po => po.map (fun v => 1 - env.expf v)),
          x = some 0 := by
        intro x hx
        rcases List.mem_map.1 hx with ⟨po, hpo, rfl⟩
        rw [hz l hl po hpo]
        simp [hexp]
      exact sentenceReduce_zeros cfg.sentence_solver _
        cfg.hallucination_threshold ht hz2 p hp

/-- Environment and configuration of the C3 counterexample. -/
def envC3 : Env := { envBase with sents := fun _ => ["ab"] }

/-- Configuration with unrecognized policy names on both levels. -/
def cfgC3 : Cfg :=
  { cfgBase with
    sentence_solver := "zzz"
    entity_solver := "zzz"
    hallucination_threshold := 0 }

/-- C3 counterexample: even with unrecognized reduction policies the entity
detector still raises: on tokens that do not align with the text, the
assert of its token ownership stage (line 545) fires before any policy is
consulted, so the detector does not satisfy never-raises as claimed. -/
theorem c3_counterexample :
    cfgC3.sentence_solver = "zzz" ∧ cfgC3.entity_solver = "zzz"
    ∧ modifierEnt envC3 cfgC3 "ab" ["z"] [0] = .error .assertionError :=
  ⟨rfl, rfl, rfl⟩

/-- Environment of the C3 and C4 witnesses. -/
def envW3 : Env :=
  { envBase with sents := fun _ => ["A."], ents := fun _ => [] }

/-- Concrete instantiation: with unknown policies both detectors return the
text unmodified and unflagged on a run that does not raise. -/
theorem c3_witness :
    modifierTok envW3 cfgC3 "A." [] [] = .ok ("A.", none, false)
    ∧ modifierEnt envW3 cfgC3 "A." [] [] = .ok ("A.", none, false) := by
  have h := (c3_unknown_solver_soft envW3 cfgC3 "A." [] [] (le_refl 0)).1
    ⟨by decide, by decide, by decide⟩
  exact ⟨h.1, h.2 rfl⟩

/-- C4 corrected: when every per-token (respectively per-entity) uncertainty
value lies strictly below a nonnegative threshold, a detector run that does
not raise returns hallucinated false with the original text and no flagged
span.  The run can still raise on degenerate inputs (see the counterexample
for an empty aligned token slice under the max policy), which is why the
no-raise proviso is needed. -/
theorem c4_no_signal_no_flag (env : Env) (cfg : Cfg) (text : String)
    (tokens : List String) (logprobs : List ℚ)
    (ht : 0 ≤ cfg.hallucination_threshold) :
    ((∀ v ∈ logprobs, 1 - env.expf v < cfg.hallucination_threshold) →
      isOkE (modifierTok env cfg text tokens logprobs) = true →
      modifierTok env cfg text tokens logprobs = .ok (text, none, false))
    ∧ (∀ eps, entityProbsOf env cfg text tokens logprobs = .ok eps →
        (∀ l ∈ eps, ∀ po ∈ l, ∀ q : ℚ, po = some q →
          1 - env.expf q < cfg.hallucination_threshold) →
        isOkE (modifierEnt env cfg text tokens logprobs) = true →
        modifierEnt env cfg text tokens logprobs = .ok (text, none, false)) := by
  constructor
  · intro hb hok
    unfold modifierTok at hok ⊢
    refine modTokGo_no_flag env cfg text tokens logprobs ?_ _ [] 0 hok
    intro probs p hmem hp
    refine sentenceReduce_no_flag cfg.sentence_solver (probs.map some)
      cfg.hallucination_threshold ht ?_ p hp
    intro q hq
    have hqp : q ∈ probs := by
      rcases List.mem_map.1 hq with ⟨x, hx, hxq⟩
      rw [Option.some.injEq] at hxq
      rwa [hxq] at hx
    rcases hmem q hqp with ⟨v, hv, rfl⟩
    exact hb v hv
  · intro eps hep hb hok
    unfold modifierEnt at hok ⊢
    rw [hep] at hok ⊢
    refine modEntGo_no_flag env cfg text _ _ eps [] ?_ hok
    intro l hl p hp
    refine sentenceReduce_no_flag cfg.sentence_solver _
      cfg.hallucination_threshold ht ?_ p hp
    intro q hq
    rcases List.mem_map.1 hq with ⟨po, hpo, hpq⟩
    cases po with
    | none => simp at hpq
    | some v =>
      simp only [Option.map_some', Option.some.injEq] at hpq
      rw [← hpq]
      exact hb l hl (some v) hpo v rfl

/-- Environment and configuration of the C4 counterexample. -/
def envC4 : Env := { envBase with sents := fun _ => ["A."] }

/-- The max policy configuration of the C4 counterexample. -/
def cfgC4 : Cfg := { cfgBase with sentence_solver := "max" }

/-- C4 counterexample: with no tokens at all every per-token uncertainty is
vacuously below the threshold, yet the token detector raises: the sentence
aligns to an empty log probability slice and np.max of an empty array
raises instead of returning hallucinated false. -/
theorem c4_counterexample :
    (∀ v ∈ ([] : List ℚ), 1 - envC4.expf v < cfgC4.hallucination_threshold)
    ∧ modifierTok envC4 cfgC4 "A." [] []
      = .error (.valueError ("zero-size array to reduction operation")) := by
  constructor
  · intro v hv
    exact absurd hv (List.not_mem_nil v)
  · rfl

/-- Concrete instantiation: below-threshold uncertainties on a run that
does not raise leave both detectors unflagged and the text unchanged. -/
theorem c4_witness :
    modifierTok envW3 cfgBase "A." [] [] = .ok ("A.", none, false)
    ∧ modifierEnt envW3 cfgBase "A." [] [] = .ok ("A.", none, false) := by
  have h := c4_no_signal_no_flag envW3 cfgBase "A." [] []
    (by norm_num [cfgBase])
  refine ⟨h.1 (by intro v hv; exact absurd hv (List.not_mem_nil v)) rfl,
    h.2 [[]] rfl ?_ rfl⟩
  intro l hl po hpo q _
  rw [List.mem_singleton] at hl
  subst hl
  exact absurd hpo (List.not_mem_nil po)

/-- The real_pairs loop produces pairs whose positions strictly increase
and start no earlier than the entry index. -/
theorem realPairsGo_props (fwd : List ℚ) (currSt : Int) (currHit : List Nat)
    (matchW : String → Bool) :
    ∀ (toks : List String) (i : Nat) (l : List (ℚ × String × Nat)),
      realPairsGo fwd currSt currHit matchW toks i = .ok l →
      List.Pairwise (fun a b : ℚ × String × Nat => a.2.2 < b.2.2) l
      ∧ ∀ p ∈ l, i ≤ p.2.2 := by
  intro toks
  induction toks with
  | nil =>
    intro i l h
    rw [realPairsGo, Except.ok.injEq] at h
    subst h
    exact ⟨List.Pairwise.nil, fun p hp => absurd hp (List.not_mem_nil p)⟩
  | cons tok rest ih =>
    intro i l h
    rw [realPairsGo] at h
    cases hg : pyGet fwd (i : Int) with
    | error e => simp only [hg] at h; exact Except.noConfusion h
    | ok att =>
      simp only [hg] at h
      cases hs : realPairsSkip currSt currHit i with
      | error e => simp only [hs] at h; exact Except.noConfusion h
      | ok skip =>
        simp only [hs] at h
        cases hr : realPairsGo fwd currSt currHit matchW rest (i + 1) with
        | error e => simp only [hr] at h; exact Except.noConfusion h
        | ok restL =>
          simp only [hr] at h
          obtain ⟨hpw, hge⟩ := ih (i + 1) restL hr
          by_cases hskip : skip = true
          · rw [if_pos hskip, Except.ok.injEq] at h
            subst h
            exact ⟨hpw, fun p hp => by have := hge p hp; omega⟩
          · rw [if_neg hskip] at h
            by_cases hm : matchW tok = true
            · rw [if_pos hm, Except.ok.injEq] at h
              subst h
              refine ⟨List.Pairwise.cons ?_ hpw, ?_⟩
              · intro b hb
                have := hge b hb
                simp only []
                omega
              · intro p hp
                rcases List.mem_cons.1 hp with hp | hp
                · subst hp; simp
                · have := hge p hp; omega
            · rw [if_neg hm, Except.ok.injEq] at h
              subst h
              exact ⟨hpw, fun p hp => by have := hge p hp; omega⟩

/-- C7: the real_words query reformulation keeps at most top-k tokens (the
configured count, or the floored ratio share of the candidate real pairs),
every kept pair is one of the candidate pairs, and the kept pairs come out
sorted by strictly increasing original position, so the surviving tokens
appear in their original left to right order. -/
theorem c7_keep_real_words (env : Env) (cfg : Cfg) (prevText : String)
    (currTokens : List String) (currHit : List Nat)
    (rp sel : List (ℚ × String × Nat))
    (hrp : keepRealWordsPairs env cfg prevText currTokens currHit = .ok rp)
    (hsel : keepRealWordsSel env cfg prevText currTokens currHit = .ok sel) :
    keepRealWords env cfg prevText currTokens currHit
      = .ok (joinSep " " (sel.map (fun p => p.2.1)))
    ∧ List.Pairwise (fun a b : ℚ × String × Nat => a.2.2 < b.2.2) sel
    ∧ (∀ p ∈ sel, p ∈ rp)
    ∧ (∀ k, cfg.retrieve_keep_top_k = some k → sel.length ≤ k)
    ∧ (cfg.retrieve_keep_top_k = none →
        ∀ r, cfg.retrieve_keep_ratio = some r → 0 ≤ r →
          (sel.length : ℚ) ≤ r * (rp.length : ℚ)) := by
  have hjoin : keepRealWords env cfg prevText currTokens currHit
      = .ok (joinSep " " (sel.map (fun p => p.2.1))) := by
    unfold keepRealWords
    rw [hsel]
  have hpwrp : List.Pairwise (fun a b : ℚ × String × Nat => a.2.2 < b.2.2)
      rp := by
    simp only [keepRealWordsPairs] at hrp
    split at hrp
    · exact Except.noConfusion hrp
    · split at hrp
      · exact Except.noConfusion hrp
      · exact (realPairsGo_props _ _ _ _ _ _ rp hrp).1
  simp only [keepRealWordsSel, hrp] at hsel
  cases htk : keepRealWordsTopK cfg rp.length with
  | error e => rw [htk] at hsel; exact Except.noConfusion hsel
  | ok k0 =>
    rw [htk, Except.ok.injEq] at hsel
    have hperm1 : List.Perm (List.insertionSort byAttnDesc rp) rp :=
      List.perm_insertionSort byAttnDesc rp
    have hperm2 : List.Perm sel
        ((List.insertionSort byAttnDesc rp).take k0) := by
      rw [← hsel]
      exact List.perm_insertionSort byIdx _
    have hmem : ∀ p ∈ sel, p ∈ rp := by
      intro p hp
      exact hperm1.subset (List.take_subset _ _ (hperm2.subset hp))
    have hlen : sel.length ≤ k0 := by
      rw [hperm2.length_eq]
      exact le_trans (List.length_take_le _ _) (le_refl k0)
    have hsorted : List.Pairwise byIdx sel := by
      rw [← hsel]
      exact List.sorted_insertionSort byIdx _
    have hnd : (sel.map (fun p : ℚ × String × Nat => p.2.2)).Nodup := by
      have hnd0 : (rp.map (fun p : ℚ × String × Nat => p.2.2)).Nodup := by
        have := List.pairwise_map.2 hpwrp
        exact this.imp (fun h => ne_of_lt h)
      have hnd1 : ((List.insertionSort byAttnDesc rp).map
          (fun p : ℚ × String × Nat => p.2.2)).Nodup :=
        ((hperm1.map _).nodup_iff).2 hnd0
      have hnd2 : (((List.insertionSort byAttnDesc rp).take k0).map
          (fun p : ℚ × String × Nat => p.2.2)).Nodup := by
        rw [List.map_take]
        exact hnd1.sublist (List.take_sublist _ _)
      exact ((hperm2.map _).nodup_iff).2 hnd2
    have hpwsel : List.Pairwise
        (fun a b : ℚ × String × Nat => a.2.2 < b.2.2) sel := by
      have hne : List.Pairwise
          (fun a b : ℚ × String × Nat => a.2.2 ≠ b.2.2) sel :=
        List.pairwise_map.1 hnd
      exact (hsorted.and hne).imp (fun h => lt_of_le_of_ne h.1 h.2)
    refine ⟨hjoin, hpwsel, hmem, ?_, ?_⟩
    · intro k hk
      rw [keepRealWordsTopK, hk, Except.ok.injEq] at htk
      subst htk
      exact le_trans hlen (min_le_left _ _)
    · intro hnone r hr hr0
      rw [keepRealWordsTopK, hnone, hr, Except.ok.injEq] at htk
      subst htk
      have hx0 : (0 : ℚ) ≤ (rp.length : ℚ) * r :=
        mul_nonneg (Nat.cast_nonneg _) hr0
      have hfl : ((Int.toNat ⌊(rp.length : ℚ) * r⌋ : ℤ) : ℚ)
          ≤ (rp.length : ℚ) * r := by
        rw [Int.toNat_of_nonneg (Int.floor_nonneg.mpr hx0)]
        exact Int.floor_le _
      have hcast : (sel.length : ℚ) ≤ (Int.toNat ⌊(rp.length : ℚ) * r⌋ : ℚ) := by
        exact_mod_cast hlen
      calc (sel.length : ℚ) ≤ (Int.toNat ⌊(rp.length : ℚ) * r⌋ : ℚ) := hcast
        _ ≤ (rp.length : ℚ) * r := by exact_mod_cast hfl
        _ = r * (rp.length : ℚ) := mul_comm _ _

/-- Concrete instantiation of the real_words selection bound on an empty
candidate set. -/
theorem c7_witness :
    keepRealWords envBase cfgBase "" [] []
      = .ok (joinSep " " (([] : List (ℚ × String × Nat)).map
          (fun p => p.2.1)))
    ∧ List.Pairwise (fun a b : ℚ × String × Nat => a.2.2 < b.2.2)
        ([] : List (ℚ × String × Nat))
    ∧ (∀ p ∈ ([] : List (ℚ × String × Nat)),
        p ∈ ([] : List (ℚ × String × Nat)))
    ∧ (∀ k, cfgBase.retrieve_keep_top_k = some k →
        ([] : List (ℚ × String × Nat)).length ≤ k)
    ∧ (cfgBase.retrieve_keep_top_k = none →
        ∀ r, cfgBase.retrieve_keep_ratio = some r → 0 ≤ r →
          ((([] : List (ℚ × String × Nat)).length : ℚ)
            ≤ r * ((([] : List (ℚ × String × Nat)).length : ℚ)))) :=
  c7_keep_real_words envBase cfgBase "" [] [] [] [] rfl rfl

end DRAGIN
